import Mathlib

/-!
Verification development for the permify authorization engine.

The Go sources under verification are shallowly embedded as Lean functions:

* `internal/repositories/memory/relationshipReader.go` — the in-memory
  relationship reader (`memQueryRelationships`, `memReadRelationships`,
  `memGetUniqueEntityIDsByEntityType`);
* `internal/repositories/postgres/relationshipReader.go` — the relational
  relationship reader (`pgQueryRelationships`, `pgReadRelationships`,
  `pgGetUniqueEntityIDsByEntityType`, `pgHeadSnapshot`);
* `internal/commands/lookupEntity.go` — the lookup-entity engine
  (`executeModel`, `streamModel`, `parallelCheckerModel`);
* `internal/keys/command.go` — the check-decision cache keys
  (`setCheckKey`, `getCheckKey`);
* the DSL expression lowering exercised by the compiler test suite
  (`compileExpr`), modelled from the specification because the compiler
  source itself is not part of the extract.

Machine integers are modelled as `Nat` (row ids and transaction ids are
`uint64` in Go; theorems that depend on the 64-bit bound carry it as an
explicit hypothesis).  Fallible Go functions are modelled in `Except String`
with the error strings the Go code produces.  Concurrency (the bounded
worker pool of the lookup engine) is modelled by a deterministic
serialization; the claims settled against it concern only the delivered
set, the returned error and termination, none of which depend on the
scheduling order beyond what is noted at the definitions.
-/

namespace Permify

/-- Equality on `Except` values is decidable when it is on both components;
used to evaluate the models on concrete inputs. -/
instance {e a : Type} [DecidableEq e] [DecidableEq a] : DecidableEq (Except e a) := fun x y =>
  match x, y with
  | .ok v, .ok w =>
    if h : v = w then isTrue (by rw [h]) else isFalse (fun hh => by cases hh; exact h rfl)
  | .error v, .error w =>
    if h : v = w then isTrue (by rw [h]) else isFalse (fun hh => by cases hh; exact h rfl)
  | .ok _, .error _ => isFalse (fun hh => by cases hh)
  | .error _, .ok _ => isFalse (fun hh => by cases hh)

/-! ## Data model: tuples and filters (pkg/pb/base/v1, internal/repositories) -/

/-- An entity reference: `base.Entity`. -/
structure Entity where
  type : String
  id : String
deriving DecidableEq

/-- A subject: `base.Subject`.  `relation` is empty for a concrete user and
names a relation for a userset reference. -/
structure Subject where
  type : String
  id : String
  relation : String
deriving DecidableEq

/-- A relationship tuple as surfaced to engines: `base.Tuple`. -/
structure Tuple where
  entity : Entity
  relation : String
  subject : Subject
deriving DecidableEq

/-- A stored row: `repositories.RelationTuple` (row id, tenant and the six
tuple fields; the row id is the `id` column of the relational store and the
memdb index id of the in-memory store). -/
structure RelationTuple where
  id : Nat
  tenantId : String
  entityType : String
  entityId : String
  relation : String
  subjectType : String
  subjectId : String
  subjectRelation : String
deriving DecidableEq

/-- `RelationTuple.ToTuple` from the Go sources: forget the row id and the
tenant, keep the tuple fields. -/
def RelationTuple.toTuple (rt : RelationTuple) : Tuple :=
  { entity := { type := rt.entityType, id := rt.entityId }
    relation := rt.relation
    subject := { type := rt.subjectType, id := rt.subjectId, relation := rt.subjectRelation } }

/-- Entity part of `base.TupleFilter`. -/
structure EntityFilter where
  type : String
  ids : List String
deriving DecidableEq

/-- Subject part of `base.TupleFilter`. -/
structure SubjectFilter where
  type : String
  ids : List String
  relation : String
deriving DecidableEq

/-- `base.TupleFilter`; per the storage contract any field may be empty,
meaning wildcard. -/
structure TupleFilter where
  entity : EntityFilter
  relation : String
  subject : SubjectFilter
deriving DecidableEq

/-- Modelled from the spec: a scalar filter field matches when it is empty
(wildcard) or equal to the value (the Go helpers `utils.FilterQuery` and
`utils.FilterQueryForSelectBuilder` are not part of the extract). -/
def fieldMatch (pat v : String) : Bool :=
  pat = "" || pat = v

/-- Modelled from the spec: an id-list filter field matches when it is empty
(wildcard) or contains the value. -/
def idsMatch (pats : List String) (v : String) : Bool :=
  pats.isEmpty || pats.contains v

/-- Modelled from the spec: a tuple matches a `TupleFilter` when every
non-empty field of the filter matches the corresponding tuple field. -/
def filterMatch (f : TupleFilter) (rt : RelationTuple) : Bool :=
  fieldMatch f.entity.type rt.entityType &&
  idsMatch f.entity.ids rt.entityId &&
  fieldMatch f.relation rt.relation &&
  fieldMatch f.subject.type rt.subjectType &&
  idsMatch f.subject.ids rt.subjectId &&
  fieldMatch f.subject.relation rt.subjectRelation

/-! ## Error codes (pkg/pb/base/v1 ErrorCode enum, as produced by `.String()`) -/

/-- `base.ErrorCode_ERROR_CODE_EXECUTION.String()`. -/
def errExecution : String := "ERROR_CODE_EXECUTION"

/-- `base.ErrorCode_ERROR_CODE_SQL_BUILDER.String()`. -/
def errSqlBuilder : String := "ERROR_CODE_SQL_BUILDER"

/-- `base.ErrorCode_ERROR_CODE_INVALID_CONTINUOUS_TOKEN.String()`. -/
def errInvalidContinuousToken : String := "ERROR_CODE_INVALID_CONTINUOUS_TOKEN"

/-- `base.ErrorCode_ERROR_CODE_TYPE_CONVERSATION.String()` (sic: the enum of
the code spells it CONVERSATION while the spec writes TYPE_CONVERSION). -/
def errTypeConversation : String := "ERROR_CODE_TYPE_CONVERSATION"

/-- The stable error enumeration of the spec (compile errors of section 4.1
plus the runtime codes of section 6), rendered the way the Go enum renders
them; both the spec spelling TYPE_CONVERSION and the code spelling
TYPE_CONVERSATION are included so that membership is generous. -/
def stableErrorCodes : List String :=
  ["ERROR_CODE_UNDEFINED_RELATION_REFERENCE",
   "ERROR_CODE_NOT_SUPPORTED_RELATION_WALK",
   "ERROR_CODE_RELATION_REFERENCE_MUST_HAVE_ONE_ENTITY_REFERENCE",
   "ERROR_CODE_RELATION_REFERENCE_NOT_FOUND_IN_ENTITY_REFERENCES",
   "ERROR_CODE_DUPLICATE_NAME",
   "ERROR_CODE_DEPTH_EXCEEDED",
   "ERROR_CODE_EXECUTION",
   "ERROR_CODE_INVALID_CONTINUOUS_TOKEN",
   "ERROR_CODE_TYPE_CONVERSION",
   "ERROR_CODE_TYPE_CONVERSATION",
   "ERROR_CODE_SQL_BUILDER",
   "ERROR_CODE_NOT_FOUND"]

/-! ## Decimal formatting and parsing (Go strconv.FormatUint / strconv.ParseUint, base 10) -/

/-- The decimal digit character for `n % 10`. -/
def digitChar (n : Nat) : Char := Char.ofNat (48 + n % 10)

/-- Little-endian decimal digits of `n`, with explicit structural fuel so the
definition reduces inside the kernel; `toDigitsRev` instantiates the fuel. -/
def toDigitsRevFuel : Nat → Nat → List Nat
  | 0, _ => []
  | f + 1, n => if n = 0 then [] else n % 10 :: toDigitsRevFuel f (n / 10)

/-- Little-endian decimal digits of `n` (`[]` for `0`). -/
def toDigitsRev (n : Nat) : List Nat := toDigitsRevFuel n n

/-- `strconv.FormatUint(n, 10)`. -/
def formatUint (n : Nat) : String :=
  if n = 0 then "0" else String.mk (((toDigitsRev n).reverse).map digitChar)

/-- Numeric value of a decimal digit character, `none` for any other character. -/
def digitVal (c : Char) : Option Nat :=
  if 48 ≤ c.toNat ∧ c.toNat ≤ 57 then some (c.toNat - 48) else none

/-- Left fold of `strconv.ParseUint`: accumulate decimal digits, failing on the
first non-digit. -/
def parseDigitsAux : Nat → List Char → Option Nat
  | acc, [] => some acc
  | acc, c :: cs =>
    match digitVal c with
    | none => none
    | some d => parseDigitsAux (acc * 10 + d) cs

/-- Digits-only parse; the empty string is a syntax error, as in Go. -/
def parseDigits : List Char → Option Nat
  | [] => none
  | cs => parseDigitsAux 0 cs

/-- `strconv.ParseUint(s, 10, 64)`: digits only, and the value must fit in 64
bits; the error strings stand in for the `strconv` syntax and range errors. -/
def parseUint (s : String) : Except String Nat :=
  match parseDigits s.data with
  | none => .error "strconv.ParseUint: invalid syntax"
  | some v => if v < 2 ^ 64 then .ok v else .error "strconv.ParseUint: value out of range"

theorem toDigitsRevFuel_spec (fuel n : Nat) (h : n ≤ fuel) :
    (toDigitsRevFuel fuel n).foldr (fun d acc => d + 10 * acc) 0 = n := by
  induction fuel generalizing n with
  | zero => interval_cases n; simp [toDigitsRevFuel]
  | succ f ih =>
    by_cases h0 : n = 0
    · simp [toDigitsRevFuel, h0]
    · have hdiv : n / 10 ≤ f := by omega
      simp only [toDigitsRevFuel, h0, if_false, List.foldr_cons, ih _ hdiv]
      omega

theorem toDigitsRevFuel_lt_ten (fuel n : Nat) : ∀ d ∈ toDigitsRevFuel fuel n, d < 10 := by
  induction fuel generalizing n with
  | zero => simp [toDigitsRevFuel]
  | succ f ih =>
    by_cases h0 : n = 0
    · simp [toDigitsRevFuel, h0]
    · simp only [toDigitsRevFuel, h0, if_false, List.mem_cons]
      rintro d (rfl | hd)
      · omega
      · exact ih _ d hd

theorem digitVal_digitChar (d : Nat) (h : d < 10) : digitVal (digitChar d) = some d := by
  interval_cases d <;> decide

theorem toNat_digitChar (d : Nat) (h : d < 10) : (digitChar d).toNat = 48 + d := by
  interval_cases d <;> decide

theorem parseDigitsAux_map_digitChar (ds : List Nat) (hds : ∀ d ∈ ds, d < 10) (acc : Nat) :
    parseDigitsAux acc (ds.map digitChar) = some (ds.foldl (fun a d => a * 10 + d) acc) := by
  induction ds generalizing acc with
  | nil => simp [parseDigitsAux]
  | cons d ds ih =>
    have hd : d < 10 := hds d (List.mem_cons_self _ _)
    have hds' : ∀ x ∈ ds, x < 10 := fun x hx => hds x (List.mem_cons_of_mem _ hx)
    simp [parseDigitsAux, digitVal_digitChar d hd, ih hds']

theorem foldl_reverse_eq_foldr (ds : List Nat) :
    ds.reverse.foldl (fun a d => a * 10 + d) 0 = ds.foldr (fun d acc => d + 10 * acc) 0 := by
  induction ds with
  | nil => rfl
  | cons d ds ih =>
    rw [List.reverse_cons, List.foldl_append, List.foldr_cons, ih]
    simp
    ring

theorem parseDigits_ne_nil (cs : List Char) (h : cs ≠ []) : parseDigits cs = parseDigitsAux 0 cs := by
  cases cs with
  | nil => exact absurd rfl h
  | cons c cs => rfl

theorem parseDigits_formatUint (n : Nat) : parseDigits (formatUint n).data = some n := by
  by_cases h0 : n = 0
  · subst h0; decide
  · have hne : toDigitsRev n ≠ [] := by
      unfold toDigitsRev
      cases n with
      | zero => exact absurd rfl h0
      | succ m => simp [toDigitsRevFuel]
    unfold formatUint
    simp only [h0, if_false]
    show parseDigits (((toDigitsRev n).reverse).map digitChar) = some n
    have hlt : ∀ d ∈ (toDigitsRev n).reverse, d < 10 := by
      intro d hd
      exact toDigitsRevFuel_lt_ten n n d (List.mem_reverse.mp hd)
    have hrev_ne : ((toDigitsRev n).reverse).map digitChar ≠ [] := by
      simp [hne]
    rw [parseDigits_ne_nil _ hrev_ne, parseDigitsAux_map_digitChar _ hlt 0,
      foldl_reverse_eq_foldr]
    rw [show toDigitsRev n = toDigitsRevFuel n n from rfl,
      toDigitsRevFuel_spec n n (Nat.le_refl n)]

theorem parseUint_formatUint (n : Nat) (h : n < 2 ^ 64) : parseUint (formatUint n) = .ok n := by
  unfold parseUint
  rw [parseDigits_formatUint]
  have h2 : n < 18446744073709551616 := by
    calc n < 2 ^ 64 := h
    _ = 18446744073709551616 := by norm_num
  simp [h2]

theorem mem_data_formatUint (n : Nat) : ∀ c ∈ (formatUint n).data, 48 ≤ c.toNat ∧ c.toNat ≤ 57 := by
  by_cases h0 : n = 0
  · subst h0; decide
  · unfold formatUint
    simp only [h0, if_false]
    intro c hc
    have : c ∈ ((toDigitsRev n).reverse).map digitChar := hc
    rcases List.mem_map.mp this with ⟨d, hd, rfl⟩
    have hlt : d < 10 := toDigitsRevFuel_lt_ten n n d (List.mem_reverse.mp hd)
    rw [toNat_digitChar d hlt]
    omega

/-! ## Base64 (Go encoding/base64 StdEncoding)

Modelled from the spec: the continuous token is the opaque base64 form of the
last seen row id, and the snapshot token is an opaque base64 token; the Go
token codecs (`utils.ContinuousToken`, the `snapshot` packages) are not part
of the extract, so RFC 4648 standard base64 with padding is implemented here
directly over byte lists. -/

/-- The standard base64 alphabet. -/
def b64Alphabet : List Char :=
  "ABCDEFGHIJKLMNOPQRSTUVWXYZabcdefghijklmnopqrstuvwxyz0123456789+/".data

/-- Character for a 6-bit group. -/
def b64Char (n : Nat) : Char := b64Alphabet.getD n 'A'

/-- Value of a base64 alphabet character, `none` for anything else. -/
def b64Val (c : Char) : Option Nat :=
  let i := b64Alphabet.indexOf c
  if i < 64 then some i else none

/-- Encode a byte list (values < 256) as standard base64 with padding. -/
def b64EncodeBytes : List Nat → List Char
  | [] => []
  | [a] => [b64Char (a / 4), b64Char (a % 4 * 16), '=', '=']
  | [a, b] => [b64Char (a / 4), b64Char (a % 4 * 16 + b / 16), b64Char (b % 16 * 4), '=']
  | a :: b :: c :: rest =>
    b64Char (a / 4) :: b64Char (a % 4 * 16 + b / 16) ::
    b64Char (b % 16 * 4 + c / 64) :: b64Char (c % 64) :: b64EncodeBytes rest

/-- The error text the Go base64 decoder reports on malformed input. -/
def b64IllegalData : String := "illegal base64 data at input byte"

/-- Decode standard base64 with padding back into a byte list. -/
def b64DecodeBytes : List Char → Except String (List Nat)
  | [] => .ok []
  | w :: x :: y :: z :: rest =>
    match b64Val w, b64Val x with
    | some vw, some vx =>
      if z = '=' then
        if rest = [] then
          if y = '=' then .ok [vw * 4 + vx / 16]
          else
            match b64Val y with
            | some vy => .ok [vw * 4 + vx / 16, vx % 16 * 16 + vy / 4]
            | none => .error b64IllegalData
        else .error b64IllegalData
      else
        match b64Val y, b64Val z with
        | some vy, some vz =>
          match b64DecodeBytes rest with
          | .ok tail => .ok ((vw * 4 + vx / 16) :: (vx % 16 * 16 + vy / 4) :: (vy % 4 * 64 + vz) :: tail)
          | .error e => .error e
        | _, _ => .error b64IllegalData
    | _, _ => .error b64IllegalData
  | _ => .error b64IllegalData

theorem b64Val_b64Char : ∀ n < 64, b64Val (b64Char n) = some n := by decide

theorem b64Char_ne_eq : ∀ n < 64, b64Char n ≠ '=' := by decide

theorem b64DecodeBytes_encode (bs : List Nat) (h : ∀ b ∈ bs, b < 256) :
    b64DecodeBytes (b64EncodeBytes bs) = .ok bs := by
  match bs, h with
  | [], _ => simp [b64EncodeBytes, b64DecodeBytes]
  | [a], h =>
    have ha : a < 256 := h a (by simp)
    have h1 : a / 4 < 64 := by omega
    have h2 : a % 4 * 16 < 64 := by omega
    simp only [b64EncodeBytes, b64DecodeBytes, b64Val_b64Char _ h1, b64Val_b64Char _ h2,
      eq_self_iff_true, if_true, Except.ok.injEq, List.cons.injEq, and_true]
    omega
  | [a, b], h =>
    have ha : a < 256 := h a (by simp)
    have hb : b < 256 := h b (by simp)
    have h1 : a / 4 < 64 := by omega
    have h2 : a % 4 * 16 + b / 16 < 64 := by omega
    have h3 : b % 16 * 4 < 64 := by omega
    simp only [b64EncodeBytes, b64DecodeBytes, b64Val_b64Char _ h1, b64Val_b64Char _ h2,
      b64Val_b64Char _ h3, eq_self_iff_true, if_true, if_neg (b64Char_ne_eq _ h3),
      Except.ok.injEq, List.cons.injEq, and_true]
    omega
  | a :: b :: c :: rest, h =>
    have ha : a < 256 := h a (by simp)
    have hb : b < 256 := h b (by simp)
    have hc : c < 256 := h c (by simp)
    have hrest : ∀ x ∈ rest, x < 256 := fun x hx => h x (by simp [hx])
    have h1 : a / 4 < 64 := by omega
    have h2 : a % 4 * 16 + b / 16 < 64 := by omega
    have h3 : b % 16 * 4 + c / 64 < 64 := by omega
    have h4 : c % 64 < 64 := by omega
    have ih := b64DecodeBytes_encode rest hrest
    have henc : b64EncodeBytes (a :: b :: c :: rest)
        = b64Char (a / 4) :: b64Char (a % 4 * 16 + b / 16) ::
          b64Char (b % 16 * 4 + c / 64) :: b64Char (c % 64) :: b64EncodeBytes rest := rfl
    rw [henc]
    simp only [b64DecodeBytes, b64Val_b64Char _ h1, b64Val_b64Char _ h2,
      b64Val_b64Char _ h3, b64Val_b64Char _ h4, if_neg (b64Char_ne_eq _ h4), ih,
      Except.ok.injEq, List.cons.injEq, and_true]
    omega

/-! ## Token codecs -/

/-- UTF-8-as-bytes view of a string; all strings handled by the token codecs
are ASCII, for which the code points are the bytes. -/
def stringToBytes (s : String) : List Nat := s.data.map Char.toNat

/-- Inverse of `stringToBytes` on byte lists. -/
def bytesToString (bs : List Nat) : String := String.mk (bs.map Char.ofNat)

theorem bytesToString_stringToBytes (s : String) : bytesToString (stringToBytes s) = s := by
  unfold bytesToString stringToBytes
  rw [List.map_map]
  have : (Char.ofNat ∘ Char.toNat) = id := by
    funext c
    exact Char.ofNat_toNat c
  rw [this, List.map_id]

/-- Modelled from the spec: the continuous token is the opaque base64 form of
its value (`utils.ContinuousToken.Encode` is not part of the extract). -/
def encodeContToken (v : String) : String := String.mk (b64EncodeBytes (stringToBytes v))

/-- Modelled from the spec: inverse of `encodeContToken`
(`utils.EncodedContinuousToken.Decode`); fails on strings that are not
well-formed base64. -/
def decodeContToken (s : String) : Except String String :=
  match b64DecodeBytes s.data with
  | .error e => .error e
  | .ok bs => .ok (bytesToString bs)

theorem decodeContToken_encode (v : String) (h : ∀ c ∈ v.data, c.toNat < 256) :
    decodeContToken (encodeContToken v) = .ok v := by
  unfold decodeContToken encodeContToken
  have hb : ∀ b ∈ stringToBytes v, b < 256 := by
    intro b hb
    rcases List.mem_map.mp hb with ⟨c, hc, rfl⟩
    exact h c hc
  have : (String.mk (b64EncodeBytes (stringToBytes v))).data = b64EncodeBytes (stringToBytes v) := rfl
  rw [this, b64DecodeBytes_encode _ hb]
  show Except.ok (bytesToString (stringToBytes v)) = Except.ok v
  rw [bytesToString_stringToBytes]

/-- Modelled from the spec: the snapshot token is an opaque, ordered,
base64-encoded token carrying the monotone transaction identifier (the
`snapshot` token packages are not part of the extract); modelled as the
base64 form of the decimal rendering of the identifier. -/
def snapTokenEncode (xid : Nat) : String := encodeContToken (formatUint xid)

/-- Modelled from the spec: inverse of `snapTokenEncode`. -/
def snapTokenDecode (s : String) : Except String Nat :=
  match decodeContToken s with
  | .error e => .error e
  | .ok v =>
    match parseDigits v.data with
    | none => .error "invalid snapshot token"
    | some n => .ok n

theorem snapTokenDecode_encode (x : Nat) : snapTokenDecode (snapTokenEncode x) = .ok x := by
  unfold snapTokenDecode snapTokenEncode
  have h : ∀ c ∈ (formatUint x).data, c.toNat < 256 := by
    intro c hc
    have := mem_data_formatUint x c hc
    omega
  rw [decodeContToken_encode _ h]
  show (match parseDigits (formatUint x).data with
    | none => Except.error "invalid snapshot token"
    | some n => Except.ok n) = Except.ok x
  rw [parseDigits_formatUint]

/-- The continuous token returned by `ReadRelationships`: either the noop
token (`utils.NewNoopContinuousToken().Encode()`) or an encoded value
(`utils.NewContinuousToken(v).Encode()`). -/
inductive ContinuousToken where
  | noop
  | token (value : String)
deriving DecidableEq

/-! ## In-memory relationship reader (internal/repositories/memory/relationshipReader.go) -/

/-- A row of the in-memory store.  `committedAt` is ghost state recording the
wall-clock instant the row was committed (the in-memory snapshot tokens are
wall-clock timestamps); the reader models below never consult it, exactly as
the Go reader never consults its snapshot argument. -/
structure MemRow where
  rt : RelationTuple
  committedAt : Nat
deriving DecidableEq

/-- Combined effect of `utils.GetIndexNameAndArgsByFilters` plus the
`memdb.FilterIterator`: the rows of the tenant matching the filter. -/
def memMatch (tenant : String) (f : TupleFilter) (r : MemRow) : Bool :=
  r.rt.tenantId = tenant && filterMatch f r.rt

/-- `memory.RelationshipReader.QueryRelationships`: collect every matching
row of the current store into a tuple collection.  The snapshot argument is
ignored by the Go code (bound to `_`), hence also here. -/
def memQueryRelationships (db : List MemRow) (tenant : String) (f : TupleFilter)
    (_snap : String) : Except String (List Tuple) :=
  .ok (((db.filter (memMatch tenant f)).map (·.rt)).map RelationTuple.toTuple)

/-- `sort.Slice(tup, func(i, j) { return tup[i].ID < tup[j].ID })`: sort rows
by ascending row id (insertion sort; for the duplicate-free id lists of the
store any sort agrees). -/
def sortById (l : List RelationTuple) : List RelationTuple :=
  List.insertionSort (fun a b => a.id ≤ b.id) l

/-- The paging loop of `memory.RelationshipReader.ReadRelationships`: walk the
sorted rows, keep those with id at least the lower bound, and stop with a
continuous token as soon as one more row than the page size has been seen. -/
def readLoop (pageSize lowerBound : Nat) :
    List RelationTuple → List RelationTuple → List RelationTuple × ContinuousToken
  | acc, [] => (acc, .noop)
  | acc, t :: ts =>
    if lowerBound ≤ t.id then
      if pageSize < (acc ++ [t]).length then
        ((acc ++ [t]).take pageSize, .token (encodeContToken (formatUint t.id)))
      else readLoop pageSize lowerBound (acc ++ [t]) ts
    else readLoop pageSize lowerBound acc ts

/-- `memory.RelationshipReader.ReadRelationships`.  The Go code converts each
kept row with `ToTuple` as it appends; the model keeps rows and converts the
final page, which yields the same collection.  The snapshot argument is
ignored by the Go code. -/
def memReadRelationships (db : List MemRow) (tenant : String) (f : TupleFilter)
    (_snap : String) (pageSize : Nat) (tok : String) :
    Except String (List Tuple × ContinuousToken) :=
  let go : Nat → Except String (List Tuple × ContinuousToken) := fun lowerBound =>
    let sorted := sortById ((db.filter (memMatch tenant f)).map (·.rt))
    let out := readLoop pageSize lowerBound [] sorted
    .ok (out.1.map RelationTuple.toTuple, out.2)
  if tok = "" then go 0
  else
    match decodeContToken tok with
    | .error e => .error e
    | .ok s =>
      match parseUint s with
      | .error _ => .error errInvalidContinuousToken
      | .ok v => go v

/-- `removeDuplicate` from the Go sources: drop repeated entries, keeping the
first occurrence of each. -/
def removeDuplicateAux (seen : List String) : List String → List String
  | [] => []
  | x :: xs =>
    if seen.contains x then removeDuplicateAux seen xs
    else x :: removeDuplicateAux (x :: seen) xs

/-- `removeDuplicate` from the Go sources. -/
def removeDuplicate (l : List String) : List String := removeDuplicateAux [] l

/-- `memory.RelationshipReader.GetUniqueEntityIDsByEntityType`: entity ids of
the rows of the tenant with the given entity type, deduplicated.  The
snapshot argument is ignored by the Go code. -/
def memGetUniqueEntityIDsByEntityType (db : List MemRow) (tenant typ : String)
    (_snap : String) : Except String (List String) :=
  .ok (removeDuplicate
    ((db.filter (fun r => r.rt.tenantId == tenant && r.rt.entityType == typ)).map (·.rt.entityId)))

/-! ## Relational relationship reader (internal/repositories/postgres/relationshipReader.go)

The SQL building blocks of the Go reader that are not part of the extract
are modelled from the spec: `utils.SnapshotQuery` restricts a query to rows
committed at or before the snapshot transaction (spec section 3: tuples are
visible under snapshot S iff they were committed at or before S), and the
relational engine evaluates the built query as row filtering, ordering and
limiting.  Driver-level failures (transaction begin, row scan, row
iteration, commit) cannot be produced from the data alone, so they are
injected through `PgFx`; `none` everywhere means the storage behaves. -/

/-- A row of the relation_tuples table; `commitTx` is the transaction id
under which the row was committed. -/
structure PgRow where
  rt : RelationTuple
  commitTx : Nat
deriving DecidableEq

/-- Failure injection for the relational driver: each field carries the error
text of the corresponding failing step, `none` when the step succeeds. -/
structure PgFx where
  beginTxErr : Option String
  toSqlErr : Option String
  execErr : Option String
  scanErr : Option String
  rowsIterErr : Option String
  commitErr : Option String
deriving DecidableEq

/-- A behaving relational driver: no injected failures. -/
def noFx : PgFx :=
  { beginTxErr := none, toSqlErr := none, execErr := none,
    scanErr := none, rowsIterErr := none, commitErr := none }

/-- Visibility of a row for a query of `tenant` under snapshot transaction
`xid` with a tuple filter: the tenant and filter conditions of the built
query plus the spec-modelled `utils.SnapshotQuery` condition. -/
def pgVisible (tenant : String) (f : TupleFilter) (xid : Nat) (r : PgRow) : Bool :=
  r.rt.tenantId == tenant && filterMatch f r.rt && r.commitTx ≤ xid

/-- `postgres.RelationshipReader.QueryRelationships`: decode the snapshot,
open a read-only transaction, build and run the filtered query, scan the
rows into a collection, commit.  Failure mapping is exactly that of the Go
code: `ToSql` failures become `ERROR_CODE_SQL_BUILDER`, `QueryContext`
failures become `ERROR_CODE_EXECUTION`, and snapshot-decode, `BeginTx`,
`Scan`, `rows.Err` and `Commit` failures are returned unchanged. -/
def pgQueryRelationships (db : List PgRow) (fx : PgFx) (tenant : String)
    (f : TupleFilter) (snap : String) : Except String (List Tuple) :=
  match snapTokenDecode snap with
  | .error e => .error e
  | .ok xid =>
    match fx.beginTxErr with
    | some e => .error e
    | none =>
      match fx.toSqlErr with
      | some _ => .error errSqlBuilder
      | none =>
        match fx.execErr with
        | some _ => .error errExecution
        | none =>
          match fx.scanErr with
          | some e => .error e
          | none =>
            match fx.rowsIterErr with
            | some e => .error e
            | none =>
              match fx.commitErr with
              | some e => .error e
              | none =>
                .ok (((db.filter (pgVisible tenant f xid)).map (·.rt)).map RelationTuple.toTuple)

/-- `postgres.RelationshipReader.ReadRelationships`: like the query, with the
pagination token decoded after `BeginTx`, the query ordered by row id and
limited to one row more than the page size, and the continuous token built
from the last scanned row id when a full page plus one was read. -/
def pgReadRelationships (db : List PgRow) (fx : PgFx) (tenant : String)
    (f : TupleFilter) (snap : String) (pageSize : Nat) (tok : String) :
    Except String (List Tuple × ContinuousToken) :=
  match snapTokenDecode snap with
  | .error e => .error e
  | .ok xid =>
    match fx.beginTxErr with
    | some e => .error e
    | none =>
      let go : Nat → Except String (List Tuple × ContinuousToken) := fun lowerBound =>
        match fx.toSqlErr with
        | some _ => .error errSqlBuilder
        | none =>
          match fx.execErr with
          | some _ => .error errExecution
          | none =>
            match fx.scanErr with
            | some e => .error e
            | none =>
              match fx.rowsIterErr with
              | some e => .error e
              | none =>
                match fx.commitErr with
                | some e => .error e
                | none =>
                  let rows := (sortById ((db.filter
                    (fun r => pgVisible tenant f xid r && lowerBound ≤ r.rt.id)).map (·.rt))).take
                    (pageSize + 1)
                  let lastID := ((rows.getLast?).map (·.id)).getD 0
                  if pageSize < rows.length then
                    .ok ((rows.take pageSize).map RelationTuple.toTuple,
                      .token (encodeContToken (formatUint lastID)))
                  else .ok (rows.map RelationTuple.toTuple, .noop)
      if tok = "" then go 0
      else
        match decodeContToken tok with
        | .error e => .error e
        | .ok s =>
          match parseUint s with
          | .error _ => .error errInvalidContinuousToken
          | .ok v => go v

/-- `postgres.RelationshipReader.GetUniqueEntityIDsByEntityType`: distinct
entity ids of the visible rows of the tenant with the given entity type. -/
def pgGetUniqueEntityIDsByEntityType (db : List PgRow) (fx : PgFx)
    (tenant typ snap : String) : Except String (List String) :=
  match snapTokenDecode snap with
  | .error e => .error e
  | .ok xid =>
    match fx.beginTxErr with
    | some e => .error e
    | none =>
      match fx.toSqlErr with
      | some _ => .error errSqlBuilder
      | none =>
        match fx.execErr with
        | some _ => .error errExecution
        | none =>
          match fx.scanErr with
          | some e => .error e
          | none =>
            match fx.rowsIterErr with
            | some e => .error e
            | none =>
              match fx.commitErr with
              | some e => .error e
              | none =>
                .ok (removeDuplicate ((db.filter (fun r =>
                  r.rt.entityType == typ && r.rt.tenantId == tenant && r.commitTx ≤ xid)).map
                  (·.rt.entityId)))

/-- `postgres.RelationshipReader.HeadSnapshot`: the largest transaction id of
the tenant (`ORDER BY id DESC LIMIT 1`); when the tenant has no transactions
the `sql.ErrNoRows` branch of the Go code returns the zero transaction id
with no error.  `Scan` failures other than no-rows are returned unchanged. -/
def pgHeadSnapshot (txns : List (String × Nat)) (fx : PgFx) (tenant : String) :
    Except String Nat :=
  match fx.toSqlErr with
  | some _ => .error errSqlBuilder
  | none =>
    match fx.scanErr with
    | some e => .error e
    | none =>
      match ((txns.filter (·.1 == tenant)).map (·.2)).max? with
      | none => .ok 0
      | some x => .ok x

/-! ## Check requests and the lookup-entity engine (internal/commands/lookupEntity.go) -/

/-- `base.PermissionCheckRequestMetadata`. -/
structure CheckMetadata where
  snapToken : String
  schemaVersion : String
  depth : Nat
  exclusion : Bool
deriving DecidableEq

/-- `base.PermissionCheckRequest`. -/
structure PermissionCheckRequest where
  tenantId : String
  metadata : CheckMetadata
  entity : Entity
  permission : String
  subject : Subject
deriving DecidableEq

/-- `base.PermissionCheckResponse_Result`: `RESULT_ALLOWED` or `RESULT_DENIED`. -/
inductive CheckResult where
  | allowed
  | denied
deriving DecidableEq

/-- `base.PermissionCheckResponse`. -/
structure PermissionCheckResponse where
  can : CheckResult
  remainingDepth : Nat
deriving DecidableEq

/-- `base.PermissionLookupEntityRequestMetadata`. -/
structure LookupMetadata where
  snapToken : String
  schemaVersion : String
  depth : Nat
deriving DecidableEq

/-- `base.PermissionLookupEntityRequest`. -/
structure PermissionLookupEntityRequest where
  tenantId : String
  metadata : LookupMetadata
  entityType : String
  permission : String
  subject : Subject
deriving DecidableEq

/-- The collaborators of `LookupEntityCommand`: the relationship reader
(`HeadSnapshot`, already encoded to its string form, and
`GetUniqueEntityIDsByEntityType` taking tenant, entity type and snapshot
token), the schema reader (`HeadVersion`) and the check command
(`checkCommand.Execute`).  The engine is verified over any collaborators,
so these are parameters of the model. -/
structure LookupEnv where
  headSnapshot : Except String String
  headVersion : Except String String
  getUniqueEntityIDs : String → String → String → Except String (List String)
  check : PermissionCheckRequest → Except String PermissionCheckResponse

/-- The identical default-resolution blocks at the top of `Execute` and
`Stream`: an empty snapshot token is replaced by the head snapshot and an
empty schema version by the head version; non-empty fields are left
untouched. -/
def resolveMetadata (env : LookupEnv) (req : PermissionLookupEntityRequest) :
    Except String PermissionLookupEntityRequest :=
  let step1 : Except String PermissionLookupEntityRequest :=
    if req.metadata.snapToken = "" then
      match env.headSnapshot with
      | .error e => .error e
      | .ok st => .ok { req with metadata := { req.metadata with snapToken := st } }
    else .ok req
  match step1 with
  | .error e => .error e
  | .ok req1 =>
    if req1.metadata.schemaVersion = "" then
      match env.headVersion with
      | .error e => .error e
      | .ok v => .ok { req1 with metadata := { req1.metadata with schemaVersion := v } }
    else .ok req1

/-- The check request built by `internalCheck` for a candidate entity id:
the tenant, snapshot token, schema version, depth, permission and subject
of the lookup request, the entity assembled from the requested type and the
candidate id, and `Exclusion: false`. -/
def internalCheckRequest (req : PermissionLookupEntityRequest) (id : String) :
    PermissionCheckRequest :=
  { tenantId := req.tenantId
    metadata :=
      { snapToken := req.metadata.snapToken
        schemaVersion := req.metadata.schemaVersion
        depth := req.metadata.depth
        exclusion := false }
    entity := { type := req.entityType, id := id }
    permission := req.permission
    subject := req.subject }

/-- Whether `internalCheck` sends the id to the result channel: the check
succeeded with `RESULT_ALLOWED`. -/
def checkAllows (env : LookupEnv) (req : PermissionLookupEntityRequest) (id : String) : Bool :=
  match env.check (internalCheckRequest req id) with
  | .ok r => r.can == .allowed
  | .error _ => false

/-- The first error among the per-id checks, if any (the error
`errgroup.Wait` reports). -/
def firstCheckError (env : LookupEnv) (req : PermissionLookupEntityRequest)
    (ids : List String) : Option String :=
  ids.findSome? (fun id =>
    match env.check (internalCheckRequest req id) with
    | .error e => some e
    | .ok _ => none)

/-- `parallelChecker`, serialized: the ids it sends to the result channel
and the error it sends to the error channel (`none` when it closes the
result channel without an error).  When `GetUniqueEntityIDsByEntityType`
fails the error is sent and no id; when a check fails the allowed ids have
all been sent to the buffered result channel before `errgroup.Wait`
returns.  Sibling checks are serialized in id order, which fixes the order
of the delivered list; the claims about this engine concern only the
delivered set and the error. -/
def parallelCheckerModel (env : LookupEnv) (req : PermissionLookupEntityRequest) :
    List String × Option String :=
  match env.getUniqueEntityIDs req.tenantId req.entityType req.metadata.snapToken with
  | .error e => ([], some e)
  | .ok ids => (ids.filter (checkAllows env req), firstCheckError env req ids)

/-- Observable outcome of the batched `Execute`. -/
inductive ExecuteOutcome where
  | errored (e : String)
  | ok (entityIds : List String)
  | hang
deriving DecidableEq

/-- `Execute` after default resolution: range over the result channel.
`Execute` never reads the unbuffered error channel, so whenever
`parallelChecker` sends an error the send blocks forever, the result
channel is never closed, and `Execute` never returns: outcome `hang`. -/
def executeAfter (env : LookupEnv) (req : PermissionLookupEntityRequest) : ExecuteOutcome :=
  match parallelCheckerModel env req with
  | (_, some _) => .hang
  | (ids, none) => .ok ids

/-- `LookupEntityCommand.Execute`. -/
def executeModel (env : LookupEnv) (req : PermissionLookupEntityRequest) : ExecuteOutcome :=
  match resolveMetadata env req with
  | .error e => .errored e
  | .ok r => executeAfter env r

/-- `Stream` after default resolution: the ids sent to the gRPC stream and
the final result.  `Stream` selects over both channels, so an error sent by
`parallelChecker` is received and returned; the serialization drains the
buffered result channel first, so the delivered ids are exactly the ids
`parallelChecker` sent. -/
def streamAfter (env : LookupEnv) (req : PermissionLookupEntityRequest) :
    List String × Except String Unit :=
  match parallelCheckerModel env req with
  | (ids, some e) => (ids, .error e)
  | (ids, none) => (ids, .ok ())

/-- `LookupEntityCommand.Stream`. -/
def streamModel (env : LookupEnv) (req : PermissionLookupEntityRequest) :
    List String × Except String Unit :=
  match resolveMetadata env req with
  | .error e => ([], .error e)
  | .ok r => streamAfter env r

/-! ## Check-decision cache keys (internal/keys/command.go)

The xxhash library (`github.com/cespare/xxhash`, XXH64 with seed 0) and the
hex encoder are external to the repository and are implemented here
directly; `tuple.EntityAndRelationToString` and `tuple.SubjectToString` are
modelled from the tuple textual form of spec section 6
(`entity_type:entity_id#relation@subject_type:subject_id[#subject_relation]`);
the cache behind `cache.Cache` is modelled from the spec as a
content-addressed map. -/

/-- Reduction modulo 2^64. -/
def wrap64 (x : Nat) : Nat := x % 18446744073709551616

/-- 64-bit left rotation (callers keep `x` below 2^64). -/
def rotl64 (x r : Nat) : Nat := wrap64 (x <<< r) ||| (x >>> (64 - r))

/-- XXH64 prime 1. -/
def xxPrime1 : Nat := 11400714785074694791

/-- XXH64 prime 2. -/
def xxPrime2 : Nat := 14029467366897019727

/-- XXH64 prime 3. -/
def xxPrime3 : Nat := 1609587929392839161

/-- XXH64 prime 4. -/
def xxPrime4 : Nat := 9650029242287828579

/-- XXH64 prime 5. -/
def xxPrime5 : Nat := 2870177450012600261

/-- Little-endian integer value of a byte list. -/
def readLE (bs : List Nat) : Nat := bs.foldr (fun b acc => b + 256 * acc) 0

/-- The XXH64 accumulator round. -/
def xxRound (acc input : Nat) : Nat :=
  wrap64 (rotl64 (wrap64 (acc + wrap64 (input * xxPrime2))) 31 * xxPrime1)

/-- The XXH64 merge round. -/
def xxMergeRound (h v : Nat) : Nat :=
  wrap64 (wrap64 ((h ^^^ xxRound 0 v) * xxPrime1) + xxPrime4)

/-- The 32-byte block phase of XXH64 (fuel-structural so it reduces). -/
def xxBlocks : Nat → Nat × Nat × Nat × Nat → List Nat → (Nat × Nat × Nat × Nat) × List Nat
  | 0, vs, bs => (vs, bs)
  | f + 1, (v1, v2, v3, v4), bs =>
    if bs.length < 32 then ((v1, v2, v3, v4), bs)
    else
      xxBlocks f
        (xxRound v1 (readLE (bs.take 8)),
         xxRound v2 (readLE ((bs.drop 8).take 8)),
         xxRound v3 (readLE ((bs.drop 16).take 8)),
         xxRound v4 (readLE ((bs.drop 24).take 8)))
        (bs.drop 32)

/-- The 8-byte tail phase of XXH64. -/
def xxTail8 : Nat → Nat → List Nat → Nat × List Nat
  | 0, h, bs => (h, bs)
  | f + 1, h, bs =>
    if bs.length < 8 then (h, bs)
    else
      xxTail8 f
        (wrap64 (wrap64 (rotl64 (h ^^^ xxRound 0 (readLE (bs.take 8))) 27 * xxPrime1) + xxPrime4))
        (bs.drop 8)

/-- The byte tail phase of XXH64. -/
def xxByteStep : Nat → List Nat → Nat
  | h, [] => h
  | h, b :: bs => xxByteStep (wrap64 (rotl64 (h ^^^ wrap64 (b * xxPrime5)) 11 * xxPrime1)) bs

/-- The XXH64 avalanche finalizer. -/
def xxAvalanche (h : Nat) : Nat :=
  let h1 := h ^^^ (h >>> 33)
  let h2 := wrap64 (h1 * xxPrime2)
  let h3 := h2 ^^^ (h2 >>> 29)
  let h4 := wrap64 (h3 * xxPrime3)
  h4 ^^^ (h4 >>> 32)

/-- XXH64 with seed 0 over a byte list. -/
def xxh64 (bs : List Nat) : Nat :=
  let n := bs.length
  let hrest : Nat × List Nat :=
    if n ≥ 32 then
      let out := xxBlocks n
        (wrap64 (xxPrime1 + xxPrime2), xxPrime2, 0, 18446744073709551616 - xxPrime1) bs
      let v1 := out.1.1
      let v2 := out.1.2.1
      let v3 := out.1.2.2.1
      let v4 := out.1.2.2.2
      let h0 := wrap64 (rotl64 v1 1 + rotl64 v2 7 + rotl64 v3 12 + rotl64 v4 18)
      (xxMergeRound (xxMergeRound (xxMergeRound (xxMergeRound h0 v1) v2) v3) v4, out.2)
    else (xxPrime5, bs)
  let h1 := wrap64 (hrest.1 + n)
  let t8 := xxTail8 n h1 hrest.2
  let t4 : Nat × List Nat :=
    if t8.2.length ≥ 4 then
      (wrap64 (wrap64 (rotl64 (t8.1 ^^^ wrap64 (readLE (t8.2.take 4) * xxPrime1)) 23 * xxPrime2)
        + xxPrime3), t8.2.drop 4)
    else t8
  xxAvalanche (xxByteStep t4.1 t4.2)

/-- Lower-case hexadecimal digit. -/
def hexDigitChar (n : Nat) : Char :=
  if n < 10 then Char.ofNat (48 + n) else Char.ofNat (87 + n)

/-- Two-character hex form of a byte. -/
def byteToHex (b : Nat) : List Char := [hexDigitChar (b / 16), hexDigitChar (b % 16)]

/-- Big-endian bytes of a 64-bit value (`xxhash.Sum` appends them big-endian). -/
def u64BigEndianBytes (x : Nat) : List Nat :=
  [x >>> 56 % 256, x >>> 48 % 256, x >>> 40 % 256, x >>> 32 % 256,
   x >>> 24 % 256, x >>> 16 % 256, x >>> 8 % 256, x % 256]

/-- `hex.EncodeToString(h.Sum(nil))`. -/
def hexOfU64 (x : Nat) : String :=
  String.mk ((u64BigEndianBytes x).foldr (fun b acc => byteToHex b ++ acc) [])

/-- Modelled from the spec: `tuple.EntityAndRelationToString`, the textual
form `entity_type:entity_id#relation`. -/
def entityAndRelationToString (e : Entity) (relation : String) : String :=
  e.type ++ ":" ++ e.id ++ "#" ++ relation

/-- Modelled from the spec: `tuple.SubjectToString`, the textual form
`subject_type:subject_id[#subject_relation]` with the relation part omitted
when empty. -/
def subjectToString (s : Subject) : String :=
  s.type ++ ":" ++ s.id ++ (if s.relation = "" then "" else "#" ++ s.relation)

/-- The canonical check-key string of `SetCheckKey` and `GetCheckKey`:
`fmt.Sprintf("check_%s_%s:%s:%s@%s", tenant, schemaVersion, snapToken,
EntityAndRelationToString(entity, permission), SubjectToString(subject))`. -/
def checkKeyString (k : PermissionCheckRequest) : String :=
  "check_" ++ k.tenantId ++ "_" ++ k.metadata.schemaVersion ++ ":" ++
    k.metadata.snapToken ++ ":" ++
    entityAndRelationToString k.entity k.permission ++ "@" ++
    subjectToString k.subject

/-- The cache key: hex of the XXH64 digest of the canonical key string. -/
def checkCacheKey (k : PermissionCheckRequest) : String :=
  hexOfU64 (xxh64 (stringToBytes (checkKeyString k)))

/-- Modelled from the spec: the content-addressed decision cache behind
`cache.Cache`, as a key-value map (association list, newest first). -/
def CheckCache : Type := List (String × PermissionCheckResponse)

/-- Modelled from the spec: `cache.Set` stores the entry and reports success. -/
def cacheSet (c : CheckCache) (k : String) (v : PermissionCheckResponse) : CheckCache × Bool :=
  ((k, v) :: c, true)

/-- Modelled from the spec: `cache.Get` looks the key up. -/
def cacheGet (c : CheckCache) (k : String) : Option PermissionCheckResponse × Bool :=
  match List.lookup k c with
  | some v => (some v, true)
  | none => (none, false)

/-- `CommandKeys.SetCheckKey`: hash the canonical key string and store the
decision under the hex digest. -/
def setCheckKey (c : CheckCache) (k : PermissionCheckRequest) (v : PermissionCheckResponse) :
    CheckCache × Bool :=
  cacheSet c (checkCacheKey k) v

/-- `CommandKeys.GetCheckKey`: hash the canonical key string and look the
decision up under the hex digest. -/
def getCheckKey (c : CheckCache) (k : PermissionCheckRequest) :
    Option PermissionCheckResponse × Bool :=
  cacheGet c (checkCacheKey k)

/-! ## DSL action-expression lowering

Modelled from the spec: the compiler itself is not part of the extract (only
its test suite is), so the lowering of parsed action expressions into
`Child` trees follows spec section 4.1: `or` lowers to UNION and `and` to
INTERSECTION with chains flattened at the same operator, a bare identifier
that resolves in the current entity lowers to a `ComputedUserSet` leaf, a
one-hop dotted identifier lowers to a `TupleToUserSet` leaf, and `not` sets
the exclusion flag of the immediately enclosing leaf (per section 9 the
behavior of `not` on a composite is a compile error).  The shapes agree
with the expectations of the compiler test suite. -/

/-- `base.Rewrite` operation. -/
inductive RewriteOp where
  | union
  | intersection
  | exclusion
deriving DecidableEq

/-- `base.Leaf` body: `ComputedUserSet` or `TupleToUserSet`. -/
inductive LeafBody where
  | computedUserSet (relation : String)
  | tupleToUserSet (tupleSetRelation computedRelation : String)
deriving DecidableEq

/-- `base.Child`: the action AST. -/
inductive Child where
  | leaf (exclusion : Bool) (body : LeafBody)
  | rewriteNode (op : RewriteOp) (children : List Child)

/-- Kind of a name inside an entity: `base.EntityDefinition_RelationalReference`. -/
inductive RelationalReference where
  | relation
  | action
deriving DecidableEq

/-- Binary operators of the parsed expression grammar. -/
inductive ExprOp where
  | or
  | and
deriving DecidableEq

/-- Parsed action expressions (the raw AST the parser produces): bare
identifiers, one-hop dotted identifiers, negation and binary chains;
parenthesized groups are subtrees. -/
inductive ExprAst where
  | ident (name : String)
  | dotIdent (relation target : String)
  | neg (e : ExprAst)
  | bin (op : ExprOp) (l r : ExprAst)

/-- Rewrite operation of a binary operator. -/
def ExprOp.toRewrite : ExprOp → RewriteOp
  | .or => .union
  | .and => .intersection

/-- Splice a compiled child into a rewrite with operation `op`: a rewrite
with the same operation is flattened into the chain, anything else stays a
single child. -/
def flattenInto (op : RewriteOp) : Child → List Child
  | .rewriteNode op2 cs => if op2 = op then cs else [.rewriteNode op2 cs]
  | c => [c]

/-- Modelled from the spec: lower a parsed action expression into a `Child`
for an entity whose name kinds are given by `refs`. -/
def compileExpr (refs : String → Option RelationalReference) : ExprAst → Except String Child
  | .ident n =>
    match refs n with
    | some _ => .ok (.leaf false (.computedUserSet n))
    | none => .error "ERROR_CODE_UNDEFINED_RELATION_REFERENCE"
  | .dotIdent r c =>
    match refs r with
    | some .relation => .ok (.leaf false (.tupleToUserSet r c))
    | _ => .error "ERROR_CODE_UNDEFINED_RELATION_REFERENCE"
  | .neg e =>
    match compileExpr refs e with
    | .ok (.leaf _ body) => .ok (.leaf true body)
    | .ok _ => .error "not applied to a composite expression"
    | .error e2 => .error e2
  | .bin op l r =>
    match compileExpr refs l, compileExpr refs r with
    | .ok lc, .ok rc =>
      .ok (.rewriteNode op.toRewrite (flattenInto op.toRewrite lc ++ flattenInto op.toRewrite rc))
    | .error e2, _ => .error e2
    | _, .error e2 => .error e2

/-! ## Shared sample data for concrete instantiations -/

/-- The all-wildcard tuple filter. -/
def wildFilter : TupleFilter :=
  { entity := { type := "", ids := [] }, relation := "",
    subject := { type := "", ids := [], relation := "" } }

/-- A sample stored row builder. -/
def sampleRow (i : Nat) (eid : String) : RelationTuple :=
  { id := i, tenantId := "t1", entityType := "doc", entityId := eid, relation := "owner",
    subjectType := "user", subjectId := "2", subjectRelation := "" }

/-! ## C10 -/

/-- C10: for a tenant with no committed transactions and a behaving driver,
the relational HeadSnapshot returns the zero transaction id and no error
instead of surfacing the no-rows condition. -/
theorem c10_headSnapshot_fresh_tenant (txns : List (String × Nat)) (tenant : String)
    (h : txns.filter (·.1 == tenant) = []) :
    pgHeadSnapshot txns noFx tenant = .ok 0 := by
  unfold pgHeadSnapshot noFx
  rw [h]
  rfl

/-- C10 witness: a store whose only transaction belongs to another tenant. -/
theorem c10_headSnapshot_fresh_tenant_witness :
    ([(("t2" : String), (5 : Nat))].filter (·.1 == "t1") = []) ∧
    pgHeadSnapshot [("t2", 5)] noFx "t1" = .ok 0 :=
  ⟨by decide, c10_headSnapshot_fresh_tenant [("t2", 5)] "t1" (by decide)⟩

/-! ## C5 -/

/-- C5: the check cache key depends on exactly the tenant, schema version,
snapshot token, entity, permission and subject of the request; two requests
agreeing on those six fields get the same key, and after a successful
`SetCheckKey` a `GetCheckKey` with any request agreeing on those fields
returns the stored decision with found, regardless of the remaining request
fields such as depth. -/
theorem c5_check_cache_key_roundtrip (r1 r2 : PermissionCheckRequest)
    (c : CheckCache) (v : PermissionCheckResponse)
    (ht : r1.tenantId = r2.tenantId)
    (hv : r1.metadata.schemaVersion = r2.metadata.schemaVersion)
    (hs : r1.metadata.snapToken = r2.metadata.snapToken)
    (he : r1.entity = r2.entity)
    (hp : r1.permission = r2.permission)
    (hsub : r1.subject = r2.subject) :
    checkCacheKey r1 = checkCacheKey r2 ∧
    (setCheckKey c r1 v).2 = true ∧
    getCheckKey (setCheckKey c r1 v).1 r2 = (some v, true) := by
  have hk : checkKeyString r1 = checkKeyString r2 := by
    unfold checkKeyString entityAndRelationToString subjectToString
    rw [ht, hv, hs, he, hp, hsub]
  have hck : checkCacheKey r1 = checkCacheKey r2 := by
    unfold checkCacheKey
    rw [hk]
  refine ⟨hck, rfl, ?_⟩
  unfold getCheckKey setCheckKey cacheGet cacheSet
  rw [← hck]
  simp [List.lookup]

/-- C5 witness: two concrete requests that differ in depth and exclusion but
agree on the six key fields; the stored decision is found on lookup. -/
theorem c5_check_cache_key_roundtrip_witness :
    checkCacheKey
        { tenantId := "t1"
          metadata := { snapToken := "s", schemaVersion := "v", depth := 20, exclusion := false }
          entity := { type := "doc", id := "1" }
          permission := "read"
          subject := { type := "user", id := "2", relation := "" } } =
      checkCacheKey
        { tenantId := "t1"
          metadata := { snapToken := "s", schemaVersion := "v", depth := 5, exclusion := true }
          entity := { type := "doc", id := "1" }
          permission := "read"
          subject := { type := "user", id := "2", relation := "" } } ∧
    (setCheckKey []
        { tenantId := "t1"
          metadata := { snapToken := "s", schemaVersion := "v", depth := 20, exclusion := false }
          entity := { type := "doc", id := "1" }
          permission := "read"
          subject := { type := "user", id := "2", relation := "" } }
        { can := .allowed, remainingDepth := 7 }).2 = true ∧
    getCheckKey
        (setCheckKey []
          { tenantId := "t1"
            metadata := { snapToken := "s", schemaVersion := "v", depth := 20, exclusion := false }
            entity := { type := "doc", id := "1" }
            permission := "read"
            subject := { type := "user", id := "2", relation := "" } }
          { can := .allowed, remainingDepth := 7 }).1
        { tenantId := "t1"
          metadata := { snapToken := "s", schemaVersion := "v", depth := 5, exclusion := true }
          entity := { type := "doc", id := "1" }
          permission := "read"
          subject := { type := "user", id := "2", relation := "" } } =
      (some { can := .allowed, remainingDepth := 7 }, true) :=
  c5_check_cache_key_roundtrip _ _ [] _ rfl rfl rfl rfl rfl rfl

/-! ## C6 -/

/-- C6: lowering `a or (b and c)` for relations a, b, c of the current
entity produces UNION of the leaf for a and an INTERSECTION of the leaves
for b and c: the parenthesized `and` stays nested inside the `or` and no
flattening happens across the two distinct operators. -/
theorem c6_or_and_precedence (refs : String → Option RelationalReference) (a b c : String)
    (ha : refs a = some .relation) (hb : refs b = some .relation)
    (hc : refs c = some .relation) :
    compileExpr refs (.bin .or (.ident a) (.bin .and (.ident b) (.ident c))) =
      .ok (.rewriteNode .union
        [.leaf false (.computedUserSet a),
         .rewriteNode .intersection
           [.leaf false (.computedUserSet b), .leaf false (.computedUserSet c)]]) := by
  have hia : compileExpr refs (.ident a) = .ok (.leaf false (.computedUserSet a)) := by
    unfold compileExpr
    rw [ha]
  have hib : compileExpr refs (.ident b) = .ok (.leaf false (.computedUserSet b)) := by
    unfold compileExpr
    rw [hb]
  have hic : compileExpr refs (.ident c) = .ok (.leaf false (.computedUserSet c)) := by
    unfold compileExpr
    rw [hc]
  have hbc : compileExpr refs (.bin .and (.ident b) (.ident c)) =
      .ok (.rewriteNode .intersection
        [.leaf false (.computedUserSet b), .leaf false (.computedUserSet c)]) := by
    unfold compileExpr
    rw [hib, hic]
    rfl
  unfold compileExpr
  rw [hia, hbc]
  rfl

/-- C6 witness: a concrete reference environment with the three relations. -/
theorem c6_or_and_precedence_witness :
    (fun n => if n = "a" ∨ n = "b" ∨ n = "c" then some RelationalReference.relation else none) "a"
        = some .relation ∧
    compileExpr
        (fun n => if n = "a" ∨ n = "b" ∨ n = "c" then some RelationalReference.relation else none)
        (.bin .or (.ident "a") (.bin .and (.ident "b") (.ident "c"))) =
      .ok (.rewriteNode .union
        [.leaf false (.computedUserSet "a"),
         .rewriteNode .intersection
           [.leaf false (.computedUserSet "b"), .leaf false (.computedUserSet "c")]]) :=
  ⟨by decide,
   c6_or_and_precedence _ "a" "b" "c" (by decide) (by decide) (by decide)⟩

/-! ## C7 -/

/-- The metadata-resolved request the claim describes: empty snapshot token
and schema version replaced by the head values, non-empty ones kept. -/
def resolvedRequest (req : PermissionLookupEntityRequest) (s v : String) :
    PermissionLookupEntityRequest :=
  { req with metadata :=
    { snapToken := if req.metadata.snapToken = "" then s else req.metadata.snapToken
      schemaVersion := if req.metadata.schemaVersion = "" then v else req.metadata.schemaVersion
      depth := req.metadata.depth } }

/-- C7: both the batched and the streaming lookup resolve their metadata
before any evaluation: an empty snapshot token becomes the head snapshot, an
empty schema version becomes the head version, and non-empty fields are used
exactly as supplied; evaluation continues on the resolved request. -/
theorem c7_lookup_defaults (env : LookupEnv) (req : PermissionLookupEntityRequest)
    (s v : String) (hs : env.headSnapshot = .ok s) (hv : env.headVersion = .ok v) :
    resolveMetadata env req = .ok (resolvedRequest req s v) ∧
    executeModel env req = executeAfter env (resolvedRequest req s v) ∧
    streamModel env req = streamAfter env (resolvedRequest req s v) := by
  have hres : resolveMetadata env req = .ok (resolvedRequest req s v) := by
    unfold resolveMetadata resolvedRequest
    rw [hs, hv]
    by_cases h1 : req.metadata.snapToken = "" <;>
      by_cases h2 : req.metadata.schemaVersion = "" <;>
        simp [h1, h2]
  refine ⟨hres, ?_, ?_⟩
  · unfold executeModel
    rw [hres]
  · unfold streamModel
    rw [hres]

/-- C7 witness: a request with both fields empty against a concrete
environment. -/
theorem c7_lookup_defaults_witness :
    ({ headSnapshot := .ok "HS", headVersion := .ok "HV",
       getUniqueEntityIDs := fun _ _ _ => .ok [],
       check := fun _ => .ok { can := .denied, remainingDepth := 0 } } : LookupEnv).headSnapshot
        = .ok "HS" ∧
    resolveMetadata
        { headSnapshot := .ok "HS", headVersion := .ok "HV",
          getUniqueEntityIDs := fun _ _ _ => .ok [],
          check := fun _ => .ok { can := .denied, remainingDepth := 0 } }
        { tenantId := "t1", metadata := { snapToken := "", schemaVersion := "", depth := 20 },
          entityType := "doc", permission := "read",
          subject := { type := "user", id := "2", relation := "" } } =
      .ok (resolvedRequest
        { tenantId := "t1", metadata := { snapToken := "", schemaVersion := "", depth := 20 },
          entityType := "doc", permission := "read",
          subject := { type := "user", id := "2", relation := "" } } "HS" "HV") :=
  ⟨rfl,
   (c7_lookup_defaults _ _ "HS" "HV" rfl rfl).1⟩

/-! ## C3 -/

/-- A lookup environment whose storage id enumeration fails. -/
def c3FailStoreEnv : LookupEnv :=
  { headSnapshot := .ok "HS", headVersion := .ok "HV",
    getUniqueEntityIDs := fun _ _ _ => .error errExecution,
    check := fun _ => .ok { can := .allowed, remainingDepth := 0 } }

/-- A lookup environment in which the check of entity id 2 fails. -/
def c3FailCheckEnv : LookupEnv :=
  { headSnapshot := .ok "HS", headVersion := .ok "HV",
    getUniqueEntityIDs := fun _ _ _ => .ok ["1", "2"],
    check := fun r =>
      if r.entity.id = "2" then .error errExecution
      else .ok { can := .allowed, remainingDepth := 0 } }

/-- A lookup request with non-empty metadata (so no defaults are resolved). -/
def c3Request : PermissionLookupEntityRequest :=
  { tenantId := "t1", metadata := { snapToken := "st", schemaVersion := "v1", depth := 20 },
    entityType := "doc", permission := "read",
    subject := { type := "user", id := "2", relation := "" } }

/-- C3, evaluated at the failing inputs: when a storage read inside the
lookup fails — `GetUniqueEntityIDsByEntityType` in the first environment, a
per-id check in the second — the batched `Execute` does not return the
error: it never returns at all, because `Execute` never reads the unbuffered
error channel, so `parallelChecker` blocks forever on the error send and
never closes the result channel.  `Stream`, which selects over both
channels, returns the error after the already delivered ids, as the claim
states. -/
theorem c3_execute_never_returns_on_storage_error :
    executeModel c3FailStoreEnv c3Request = .hang ∧
    streamModel c3FailStoreEnv c3Request = ([], .error errExecution) ∧
    executeModel c3FailCheckEnv c3Request = .hang ∧
    streamModel c3FailCheckEnv c3Request = (["1"], .error errExecution) :=
  ⟨rfl, rfl, rfl, rfl⟩

/-! ## C1 -/

theorem firstCheckError_eq_none (env : LookupEnv) (req : PermissionLookupEntityRequest)
    (ids : List String)
    (hok : ∀ id ∈ ids, ∃ resp, env.check (internalCheckRequest req id) = .ok resp) :
    firstCheckError env req ids = none := by
  unfold firstCheckError
  rw [List.findSome?_eq_none_iff]
  intro id hid
  rcases hok id hid with ⟨resp, hresp⟩
  rw [hresp]

theorem checkAllows_iff (env : LookupEnv) (req : PermissionLookupEntityRequest) (id : String) :
    checkAllows env req id = true ↔
      ∃ resp, env.check (internalCheckRequest req id) = .ok resp ∧ resp.can = .allowed := by
  unfold checkAllows
  cases hck : env.check (internalCheckRequest req id) with
  | ok r => simp [hck]
  | error e => simp [hck]

/-- C1: when the lookup completes without storage errors, the batched
`Execute` returns exactly the unique entity ids reported by
`GetUniqueEntityIDsByEntityType` under the resolved snapshot whose check —
run with the tenant, permission, subject, snapshot and schema version of
the resolved request — returns `RESULT_ALLOWED`; ids whose check returns
`RESULT_DENIED` are absent, and uniqueness of the input ids carries over to
the output. -/
theorem c1_execute_allowed_set (env : LookupEnv) (req r : PermissionLookupEntityRequest)
    (ids : List String)
    (hres : resolveMetadata env req = .ok r)
    (hids : env.getUniqueEntityIDs r.tenantId r.entityType r.metadata.snapToken = .ok ids)
    (hok : ∀ id ∈ ids, ∃ resp, env.check (internalCheckRequest r id) = .ok resp) :
    executeModel env req = .ok (ids.filter (checkAllows env r)) ∧
    (∀ id, id ∈ ids.filter (checkAllows env r) ↔ id ∈ ids ∧
      ∃ resp, env.check (internalCheckRequest r id) = .ok resp ∧ resp.can = .allowed) ∧
    (ids.Nodup → (ids.filter (checkAllows env r)).Nodup) := by
  refine ⟨?_, ?_, ?_⟩
  · simp only [executeModel, hres, executeAfter, parallelCheckerModel, hids,
      firstCheckError_eq_none env r ids hok]
  · intro id
    rw [List.mem_filter, checkAllows_iff]
  · exact fun h => h.filter _

/-- A lookup environment in which ids 1 and 3 check as allowed and id 2 as
denied. -/
def c1Env : LookupEnv :=
  { headSnapshot := .ok "HS", headVersion := .ok "HV",
    getUniqueEntityIDs := fun _ _ _ => .ok ["1", "2", "3"],
    check := fun r =>
      if r.entity.id = "2" then .ok { can := .denied, remainingDepth := 0 }
      else .ok { can := .allowed, remainingDepth := 0 } }

/-- C1 witness: the concrete environment delivers exactly the allowed ids. -/
theorem c1_execute_allowed_set_witness :
    resolveMetadata c1Env c3Request = .ok c3Request ∧
    executeModel c1Env c3Request = .ok (["1", "2", "3"].filter (checkAllows c1Env c3Request)) ∧
    ["1", "2", "3"].filter (checkAllows c1Env c3Request) = ["1", "3"] :=
  ⟨rfl,
   (c1_execute_allowed_set c1Env c3Request c3Request ["1", "2", "3"] rfl rfl
     (by intro id hid; fin_cases hid <;> exact ⟨_, rfl⟩)).1,
   by decide⟩

/-! ## C8 -/

/-- C8: a non-empty pagination token that decodes as base64 but whose
decoded value is not a decimal unsigned 64-bit integer makes
`ReadRelationships` fail with the stable code INVALID_CONTINUOUS_TOKEN on
both back ends, returning no tuple collection. -/
theorem c8_invalid_continuous_token (mdbL : List MemRow) (pdbL : List PgRow)
    (tenant : String) (f : TupleFilter) (snap : String) (xid n : Nat)
    (tok s perr : String)
    (hne : ¬ tok = "") (hdec : decodeContToken tok = .ok s)
    (hbad : parseUint s = .error perr) :
    memReadRelationships mdbL tenant f snap n tok = .error errInvalidContinuousToken ∧
    pgReadRelationships pdbL noFx tenant f (snapTokenEncode xid) n tok =
      .error errInvalidContinuousToken := by
  constructor
  · unfold memReadRelationships
    simp only [if_neg hne, hdec, hbad]
  · unfold pgReadRelationships
    rw [snapTokenDecode_encode]
    simp only [noFx, if_neg hne, hdec, hbad]

/-- C8 witness: the token `YWJj` is valid base64 for `abc`, which is not a
decimal integer. -/
theorem c8_invalid_continuous_token_witness :
    ¬ ("YWJj" : String) = "" ∧
    decodeContToken "YWJj" = .ok "abc" ∧
    parseUint "abc" = .error "strconv.ParseUint: invalid syntax" ∧
    memReadRelationships [] "t1" wildFilter "snap" 1 "YWJj" =
      .error errInvalidContinuousToken ∧
    pgReadRelationships [] noFx "t1" wildFilter (snapTokenEncode 1) 1 "YWJj" =
      .error errInvalidContinuousToken := by
  refine ⟨by decide, by decide, by decide, ?_, ?_⟩
  · exact (c8_invalid_continuous_token [] [] "t1" wildFilter "snap" 1 1 "YWJj" "abc"
      "strconv.ParseUint: invalid syntax" (by decide) (by decide) (by decide)).1
  · exact (c8_invalid_continuous_token [] [] "t1" wildFilter "snap" 1 1 "YWJj" "abc"
      "strconv.ParseUint: invalid syntax" (by decide) (by decide) (by decide)).2

/-! ## C2 -/

/-- A row committed at wall-clock instant 10. -/
def c2Row : MemRow := { rt := sampleRow 1 "1", committedAt := 10 }

/-- C2 counterexample: the claim states that on both back ends a tuple is
visible under snapshot S iff it was committed at or before S.  The
in-memory `QueryRelationships` ignores its snapshot argument: reading under
the token for instant 5 still returns the tuple of the row committed at
instant 10, so a tuple committed after S is visible under S. -/
theorem c2_visibility_counterexample :
    snapTokenDecode (snapTokenEncode 5) = .ok 5 ∧
    memQueryRelationships [c2Row] "t1" wildFilter (snapTokenEncode 5) =
      .ok [c2Row.rt.toTuple] ∧
    c2Row.committedAt = 10 ∧
    ¬ c2Row.committedAt ≤ 5 := by
  refine ⟨by decide, by decide, rfl, by decide⟩

/-- C2 amended: on the relational back end a tuple is returned by
`QueryRelationships` under snapshot S exactly when some row of the tenant
matching the filter, committed at or before S, yields it; the in-memory
back end ignores the snapshot token entirely — its result is the same under
every token and contains a tuple exactly when some currently stored row of
the tenant matches the filter, with no condition on the commit instant. -/
theorem c2_amended_snapshot_visibility (pdbL : List PgRow) (mdbL : List MemRow)
    (tenant : String) (f : TupleFilter) (xid : Nat) (t : Tuple) (snap1 snap2 : String) :
    pgQueryRelationships pdbL noFx tenant f (snapTokenEncode xid) =
      .ok (((pdbL.filter (pgVisible tenant f xid)).map (·.rt)).map RelationTuple.toTuple) ∧
    (t ∈ ((pdbL.filter (pgVisible tenant f xid)).map (·.rt)).map RelationTuple.toTuple ↔
      ∃ row ∈ pdbL, row.rt.tenantId = tenant ∧ filterMatch f row.rt = true ∧
        row.commitTx ≤ xid ∧ row.rt.toTuple = t) ∧
    memQueryRelationships mdbL tenant f snap1 = memQueryRelationships mdbL tenant f snap2 ∧
    memQueryRelationships mdbL tenant f snap1 =
      .ok (((mdbL.filter (memMatch tenant f)).map (·.rt)).map RelationTuple.toTuple) ∧
    (t ∈ ((mdbL.filter (memMatch tenant f)).map (·.rt)).map RelationTuple.toTuple ↔
      ∃ row ∈ mdbL, row.rt.tenantId = tenant ∧ filterMatch f row.rt = true ∧
        row.rt.toTuple = t) := by
  refine ⟨?_, ?_, rfl, rfl, ?_⟩
  · unfold pgQueryRelationships noFx
    rw [snapTokenDecode_encode]
  · simp only [List.mem_map, List.mem_filter, pgVisible, Bool.and_eq_true, beq_iff_eq,
      decide_eq_true_eq]
    constructor
    · rintro ⟨rt0, ⟨row, ⟨hrow, ⟨⟨hten, hfil⟩, hcommit⟩⟩, rfl⟩, rfl⟩
      exact ⟨row, hrow, hten, hfil, hcommit, rfl⟩
    · rintro ⟨row, hrow, hten, hfil, hcommit, rfl⟩
      exact ⟨row.rt, ⟨row, ⟨hrow, ⟨⟨hten, hfil⟩, hcommit⟩⟩, rfl⟩, rfl⟩
  · simp only [List.mem_map, List.mem_filter, memMatch, Bool.and_eq_true, decide_eq_true_eq]
    constructor
    · rintro ⟨rt0, ⟨row, ⟨hrow, ⟨hten, hfil⟩⟩, rfl⟩, rfl⟩
      exact ⟨row, hrow, hten, hfil, rfl⟩
    · rintro ⟨row, hrow, hten, hfil, rfl⟩
      exact ⟨row.rt, ⟨row, ⟨hrow, ⟨hten, hfil⟩⟩, rfl⟩, rfl⟩

/-! ## C9 -/

/-- A driver whose row scan fails with internal error text. -/
def c9ScanFx : PgFx := { noFx with scanErr := some "pq: connection reset by peer" }

/-- C9 counterexample: a row-scan failure in the relational
`QueryRelationships` surfaces the storage-internal error text unchanged,
which is not a code of the stable error enumeration. -/
theorem c9_raw_error_counterexample :
    pgQueryRelationships [] c9ScanFx "t1" wildFilter (snapTokenEncode 1) =
      .error "pq: connection reset by peer" ∧
    "pq: connection reset by peer" ∉ stableErrorCodes := by
  refine ⟨by decide, by decide⟩

/-- C9 amended: the relational reader maps only SQL-building failures to
`SQL_BUILDER` and query-execution failures to `EXECUTION` (and
`HeadSnapshot` maps the no-rows case to a zero snapshot, and the pagination
parse failure of `ReadRelationships` to `INVALID_CONTINUOUS_TOKEN`); every
other failure — snapshot-token decode, transaction begin, pagination-token
base64 decode, row scan, row iteration, commit — is returned to the caller
unchanged, so storage-internal error text can be surfaced. -/
theorem c9_amended_error_provenance (db : List PgRow) (txns : List (String × Nat))
    (fx : PgFx) (tenant typ snap : String) (f : TupleFilter) (n : Nat)
    (tok : String) (e : String) :
    (pgQueryRelationships db fx tenant f snap = .error e →
      e = errSqlBuilder ∨ e = errExecution ∨ snapTokenDecode snap = .error e ∨
      fx.beginTxErr = some e ∨ fx.scanErr = some e ∨ fx.rowsIterErr = some e ∨
      fx.commitErr = some e) ∧
    (pgReadRelationships db fx tenant f snap n tok = .error e →
      e = errSqlBuilder ∨ e = errExecution ∨ e = errInvalidContinuousToken ∨
      snapTokenDecode snap = .error e ∨ decodeContToken tok = .error e ∨
      fx.beginTxErr = some e ∨ fx.scanErr = some e ∨ fx.rowsIterErr = some e ∨
      fx.commitErr = some e) ∧
    (pgGetUniqueEntityIDsByEntityType db fx tenant typ snap = .error e →
      e = errSqlBuilder ∨ e = errExecution ∨ snapTokenDecode snap = .error e ∨
      fx.beginTxErr = some e ∨ fx.scanErr = some e ∨ fx.rowsIterErr = some e ∨
      fx.commitErr = some e) ∧
    (pgHeadSnapshot txns fx tenant = .error e →
      e = errSqlBuilder ∨ fx.scanErr = some e) := by
  refine ⟨?_, ?_, ?_, ?_⟩
  · intro h
    unfold pgQueryRelationships at h
    repeat' split at h
    all_goals simp_all
  · intro h
    unfold pgReadRelationships at h
    repeat' split at h
    all_goals try simp_all
    all_goals split_ifs at h
  · intro h
    unfold pgGetUniqueEntityIDsByEntityType at h
    repeat' split at h
    all_goals simp_all
  · intro h
    unfold pgHeadSnapshot at h
    repeat' split at h
    all_goals simp_all

/-- C9 amended witness: a commit failure with internal text is surfaced
unchanged by `QueryRelationships`, satisfying the provenance disjunction. -/
theorem c9_amended_error_provenance_witness :
    pgQueryRelationships [] { noFx with commitErr := some "pq: broken pipe" } "t1" wildFilter
        (snapTokenEncode 1) = .error "pq: broken pipe" ∧
    ("pq: broken pipe" = errSqlBuilder ∨ "pq: broken pipe" = errExecution ∨
      snapTokenDecode (snapTokenEncode 1) = .error "pq: broken pipe" ∨
      ({ noFx with commitErr := some "pq: broken pipe" } : PgFx).beginTxErr =
        some "pq: broken pipe" ∨
      ({ noFx with commitErr := some "pq: broken pipe" } : PgFx).scanErr =
        some "pq: broken pipe" ∨
      ({ noFx with commitErr := some "pq: broken pipe" } : PgFx).rowsIterErr =
        some "pq: broken pipe" ∨
      ({ noFx with commitErr := some "pq: broken pipe" } : PgFx).commitErr =
        some "pq: broken pipe") :=
  ⟨by decide,
   (c9_amended_error_provenance [] [] { noFx with commitErr := some "pq: broken pipe" }
     "t1" "doc" (snapTokenEncode 1) wildFilter 1 "" "pq: broken pipe").1 (by decide)⟩

/-! ## C4: pagination of ReadRelationships

Helper notions: `eligMem`/`eligPg` are the rows a paged read ranges over —
the matching (and, relationally, snapshot-visible) rows sorted by row id and
restricted to ids at or above the decoded lower bound — and `pageAndToken`
is the page/token pair the claim predicts: the first `n` of those rows, with
a continuous token encoding the id of the first unreturned row exactly when
one exists. -/

/-- The rows an in-memory paged read ranges over. -/
def eligMem (db : List MemRow) (tenant : String) (f : TupleFilter) (bound : Nat) :
    List RelationTuple :=
  (sortById ((db.filter (memMatch tenant f)).map (·.rt))).filter (fun t => bound ≤ t.id)

/-- The rows a relational paged read ranges over. -/
def eligPg (db : List PgRow) (tenant : String) (f : TupleFilter) (xid bound : Nat) :
    List RelationTuple :=
  (sortById ((db.filter (pgVisible tenant f xid)).map (·.rt))).filter (fun t => bound ≤ t.id)

/-- The page and continuous token the claim predicts over the eligible rows. -/
def pageAndToken (elig : List RelationTuple) (n : Nat) : List RelationTuple × ContinuousToken :=
  if h : n < elig.length then
    (elig.take n, .token (encodeContToken (formatUint (elig.get ⟨n, h⟩).id)))
  else (elig, .noop)

theorem sortById_perm (l : List RelationTuple) : (sortById l).Perm l :=
  List.perm_insertionSort _ l

theorem sortById_sorted (l : List RelationTuple) :
    (sortById l).Pairwise (fun a b => a.id ≤ b.id) := by
  have ht : IsTotal RelationTuple (fun a b => a.id ≤ b.id) := ⟨fun a b => Nat.le_total a.id b.id⟩
  have htr : IsTrans RelationTuple (fun a b => a.id ≤ b.id) :=
    ⟨fun a b c h1 h2 => Nat.le_trans h1 h2⟩
  exact @List.sorted_insertionSort _ _ _ ht htr l

theorem nodup_ids_iff_pairwise (l : List RelationTuple) :
    (l.map (·.id)).Nodup ↔ l.Pairwise (fun a b => a.id ≠ b.id) := by
  simp [List.Nodup, List.pairwise_map]

theorem sortById_strict (l : List RelationTuple) (hnd : (l.map (·.id)).Nodup) :
    (sortById l).Pairwise (fun a b => a.id < b.id) := by
  have hperm : ((sortById l).map (·.id)).Perm (l.map (·.id)) := (sortById_perm l).map _
  have hnd2 : ((sortById l).map (·.id)).Nodup := (hperm.nodup_iff).mpr hnd
  have hne : (sortById l).Pairwise (fun a b => a.id ≠ b.id) :=
    (nodup_ids_iff_pairwise _).mp hnd2
  exact ((sortById_sorted l).and hne).imp (fun h => lt_of_le_of_ne h.1 h.2)

theorem pairwise_lt_eq_of_perm : ∀ {l₁ l₂ : List RelationTuple}, l₁.Perm l₂ →
    l₁.Pairwise (fun a b => a.id < b.id) → l₂.Pairwise (fun a b => a.id < b.id) → l₁ = l₂ := by
  intro l₁
  induction l₁ with
  | nil =>
    intro l₂ hp _ _
    exact hp.nil_eq
  | cons a t ih =>
    intro l₂ hp h₁ h₂
    cases l₂ with
    | nil => exact absurd hp.symm.nil_eq (by simp)
    | cons b u =>
      have hab : a = b := by
        have ha2 : a ∈ b :: u := hp.mem_iff.mp (List.mem_cons_self a t)
        have hb1 : b ∈ a :: t := hp.mem_iff.mpr (List.mem_cons_self b u)
        rcases List.mem_cons.mp ha2 with h | h
        · exact h
        rcases List.mem_cons.mp hb1 with h' | h'
        · exact h'.symm
        have hlt1 : a.id < b.id := (List.pairwise_cons.mp h₁).1 b h'
        have hlt2 : b.id < a.id := (List.pairwise_cons.mp h₂).1 a h
        omega
      subst hab
      have ht : t = u := ih hp.cons_inv (List.pairwise_cons.mp h₁).2 (List.pairwise_cons.mp h₂).2
      rw [ht]

theorem sortById_filter (p : RelationTuple → Bool) (l : List RelationTuple)
    (hnd : (l.map (·.id)).Nodup) :
    sortById (l.filter p) = (sortById l).filter p := by
  have hndf : ((l.filter p).map (·.id)).Nodup :=
    ((l.filter_sublist).map _).nodup hnd
  apply pairwise_lt_eq_of_perm
  · exact (sortById_perm _).trans (((sortById_perm l).symm).filter p)
  · exact sortById_strict _ hndf
  · exact (sortById_strict l hnd).filter p

theorem readLoop_eq (n bound : Nat) :
    ∀ (ts acc : List RelationTuple), acc.length ≤ n →
      readLoop n bound acc ts = pageAndToken (acc ++ ts.filter (fun t => bound ≤ t.id)) n := by
  intro ts
  induction ts with
  | nil =>
    intro acc hacc
    unfold readLoop pageAndToken
    rw [List.filter_nil, List.append_nil]
    rw [dif_neg (by omega)]
  | cons t ts ih =>
    intro acc hacc
    by_cases hb : bound ≤ t.id
    · by_cases hfull : n < (acc ++ [t]).length
      · have hlen : acc.length = n := by
          rw [List.length_append, List.length_cons, List.length_nil] at hfull
          omega
        unfold readLoop
        rw [if_pos hb, if_pos hfull]
        unfold pageAndToken
        have hfl : (t :: ts).filter (fun t => decide (bound ≤ t.id)) =
            t :: ts.filter (fun t => decide (bound ≤ t.id)) := by
          rw [List.filter_cons_of_pos (by simpa using hb)]
        rw [hfl]
        have hlen2 : n < (acc ++ t :: ts.filter (fun t => decide (bound ≤ t.id))).length := by
          rw [List.length_append, List.length_cons]
          omega
        rw [dif_pos hlen2]
        have htake1 : (acc ++ [t]).take n = acc := by
          rw [← hlen]
          exact List.take_left acc [t]
        have htake2 : (acc ++ t :: ts.filter (fun t => decide (bound ≤ t.id))).take n = acc := by
          rw [← hlen]
          exact List.take_left acc _
        have hget : ((acc ++ t :: ts.filter (fun t => decide (bound ≤ t.id))).get
            ⟨n, hlen2⟩) = t := by
          have : (acc ++ t :: ts.filter (fun t => decide (bound ≤ t.id)))[n] = t := by
            rw [List.getElem_append_right (by omega)]
            simp [hlen]
          simpa using this
        rw [htake1, htake2, hget]
      · unfold readLoop
        rw [if_pos hb, if_neg hfull]
        have hacc2 : (acc ++ [t]).length ≤ n := by
          rw [List.length_append, List.length_cons, List.length_nil] at hfull ⊢
          omega
        rw [ih (acc ++ [t]) hacc2]
        have hfl : (t :: ts).filter (fun t => decide (bound ≤ t.id)) =
            t :: ts.filter (fun t => decide (bound ≤ t.id)) := by
          rw [List.filter_cons_of_pos (by simpa using hb)]
        rw [hfl, List.append_assoc]
        rfl
    · unfold readLoop
      rw [if_neg hb]
      rw [ih acc hacc]
      have hfl : (t :: ts).filter (fun t => decide (bound ≤ t.id)) =
          ts.filter (fun t => decide (bound ≤ t.id)) := by
        rw [List.filter_cons_of_neg (by simpa using hb)]
      rw [hfl]

theorem memRead_spec (db : List MemRow) (tenant : String) (f : TupleFilter) (snap : String)
    (n bound : Nat) (tok : String)
    (htok : tok = "" ∧ bound = 0 ∨
      ¬ tok = "" ∧ ∃ s, decodeContToken tok = .ok s ∧ parseUint s = .ok bound) :
    memReadRelationships db tenant f snap n tok =
      .ok ((pageAndToken (eligMem db tenant f bound) n).1.map RelationTuple.toTuple,
        (pageAndToken (eligMem db tenant f bound) n).2) := by
  have key : readLoop n bound [] (sortById ((db.filter (memMatch tenant f)).map (·.rt))) =
      pageAndToken (eligMem db tenant f bound) n := by
    have h :=
      readLoop_eq n bound (sortById ((db.filter (memMatch tenant f)).map (·.rt))) []
        (by simp)
    rw [List.nil_append] at h
    exact h
  rcases htok with ⟨he, rfl⟩ | ⟨hne, s, hdec, hparse⟩
  · unfold memReadRelationships
    simp only [if_pos he, key]
  · unfold memReadRelationships
    simp only [if_neg hne, hdec, hparse, key]

theorem pg_bound_rows_eq (db : List PgRow) (tenant : String) (f : TupleFilter)
    (xid bound : Nat) (hnd : (db.map (·.rt.id)).Nodup) :
    sortById ((db.filter
        (fun r => pgVisible tenant f xid r && decide (bound ≤ r.rt.id))).map (·.rt)) =
      eligPg db tenant f xid bound := by
  have h1 : db.filter (fun r => pgVisible tenant f xid r && decide (bound ≤ r.rt.id))
      = (db.filter (pgVisible tenant f xid)).filter (fun r => decide (bound ≤ r.rt.id)) := by
    rw [List.filter_filter]
    apply List.filter_congr
    intro x _
    exact Bool.and_comm _ _
  rw [h1]
  have h2 : ((db.filter (pgVisible tenant f xid)).filter
        (fun r => decide (bound ≤ r.rt.id))).map (·.rt)
      = ((db.filter (pgVisible tenant f xid)).map (·.rt)).filter
        (fun t => decide (bound ≤ t.id)) := by
    rw [List.filter_map]
    apply congrArg
    apply List.filter_congr
    intro x _
    rfl
  rw [h2]
  have hnd2 : (((db.filter (pgVisible tenant f xid)).map (·.rt)).map (·.id)).Nodup := by
    rw [List.map_map]
    have hsub : ((db.filter (pgVisible tenant f xid)).map fun r => r.rt.id).Sublist
        (db.map fun r => r.rt.id) := (List.filter_sublist db).map _
    exact hsub.nodup hnd
  rw [sortById_filter _ _ hnd2]
  rfl

theorem pgRead_spec (db : List PgRow) (tenant : String) (f : TupleFilter)
    (xid n bound : Nat) (tok : String)
    (hnd : (db.map (·.rt.id)).Nodup)
    (htok : tok = "" ∧ bound = 0 ∨
      ¬ tok = "" ∧ ∃ s, decodeContToken tok = .ok s ∧ parseUint s = .ok bound) :
    pgReadRelationships db noFx tenant f (snapTokenEncode xid) n tok =
      .ok ((pageAndToken (eligPg db tenant f xid bound) n).1.map RelationTuple.toTuple,
        (pageAndToken (eligPg db tenant f xid bound) n).2) := by
  have key :
      (if n < ((eligPg db tenant f xid bound).take (n + 1)).length then
        (Except.ok
          ((((eligPg db tenant f xid bound).take (n + 1)).take n).map RelationTuple.toTuple,
            .token (encodeContToken (formatUint
              ((((eligPg db tenant f xid bound).take (n + 1)).getLast?.map (·.id)).getD 0))))
          : Except String (List Tuple × ContinuousToken))
      else
        Except.ok (((eligPg db tenant f xid bound).take (n + 1)).map RelationTuple.toTuple,
          .noop)) =
      .ok ((pageAndToken (eligPg db tenant f xid bound) n).1.map RelationTuple.toTuple,
        (pageAndToken (eligPg db tenant f xid bound) n).2) := by
    set E := eligPg db tenant f xid bound with hE
    by_cases hn : n < E.length
    · have hlen : (E.take (n + 1)).length = n + 1 := by
        rw [List.length_take]
        omega
      rw [if_pos (by omega)]
      unfold pageAndToken
      rw [dif_pos hn]
      have htake : (E.take (n + 1)).take n = E.take n := by
        rw [List.take_take]
        congr 1
        omega
      have hgl : (E.take (n + 1)).getLast? = some (E.get ⟨n, hn⟩) := by
        rw [List.getLast?_eq_getElem?, hlen]
        have hn2 : n < (E.take (n + 1)).length := by omega
        rw [show n + 1 - 1 = n from rfl]
        rw [List.getElem?_eq_getElem hn2]
        congr 1
        rw [List.getElem_take]
        rfl
      rw [htake, hgl]
      rfl
    · have hEn : E.length ≤ n := by omega
      have htake : E.take (n + 1) = E := List.take_of_length_le (by omega)
      rw [htake, if_neg (by omega)]
      unfold pageAndToken
      rw [dif_neg hn]
  rcases htok with ⟨he, rfl⟩ | ⟨hne, s, hdec, hparse⟩
  · unfold pgReadRelationships
    rw [snapTokenDecode_encode]
    simp only [noFx, if_pos he, pg_bound_rows_eq db tenant f xid 0 hnd]
    exact key
  · unfold pgReadRelationships
    rw [snapTokenDecode_encode]
    simp only [noFx, if_neg hne, hdec, hparse, pg_bound_rows_eq db tenant f xid bound hnd]
    exact key

theorem pageAndToken_fst (elig : List RelationTuple) (n : Nat) :
    (pageAndToken elig n).1 = elig.take n := by
  unfold pageAndToken
  by_cases h : n < elig.length
  · rw [dif_pos h]
  · rw [dif_neg h, List.take_of_length_le (by omega)]

theorem pageAndToken_snd_ne_noop_iff (elig : List RelationTuple) (n : Nat) :
    (pageAndToken elig n).2 ≠ .noop ↔ n < elig.length := by
  unfold pageAndToken
  by_cases h : n < elig.length
  · rw [dif_pos h]
    simp [h]
  · rw [dif_neg h]
    simp [h]

theorem pageAndToken_snd_token (elig : List RelationTuple) (n : Nat) (h : n < elig.length) :
    (pageAndToken elig n).2 =
      .token (encodeContToken (formatUint (elig.get ⟨n, h⟩).id)) := by
  unfold pageAndToken
  rw [dif_pos h]

theorem strict_sorted_filter_ge (l : List RelationTuple) :
    l.Pairwise (fun a b => a.id < b.id) →
    ∀ (n : Nat) (h : n < l.length),
      l.filter (fun t => decide ((l.get ⟨n, h⟩).id ≤ t.id)) = l.drop n := by
  induction l with
  | nil =>
    intro _ n h
    exact absurd h (by simp)
  | cons x xs ih =>
    intro hs n h
    cases n with
    | zero =>
      have hall : ∀ a ∈ xs, decide (((x :: xs).get ⟨0, h⟩).id ≤ a.id) = true := by
        intro a ha
        have : x.id < a.id := (List.pairwise_cons.mp hs).1 a ha
        simp only [List.get]
        simp
        omega
      rw [List.filter_cons_of_pos (by simp)]
      rw [List.filter_eq_self.mpr hall]
      rfl
    | succ m =>
      have hm : m < xs.length := by simpa using h
      have hget : ((x :: xs).get ⟨m + 1, h⟩) = xs[m] := rfl
      have hmem : xs[m] ∈ xs := List.getElem_mem hm
      have hxlt : x.id < xs[m].id := (List.pairwise_cons.mp hs).1 _ hmem
      rw [hget, List.filter_cons_of_neg (by simp; omega)]
      show List.filter (fun t => decide ((xs.get ⟨m, hm⟩).id ≤ t.id)) xs
        = List.drop (m + 1) (x :: xs)
      rw [ih (List.pairwise_cons.mp hs).2 m hm]
      rfl

theorem refilter_ge (L : List RelationTuple) (bound v : Nat) (hv : bound ≤ v) :
    L.filter (fun t => decide (v ≤ t.id)) =
      (L.filter (fun t => decide (bound ≤ t.id))).filter (fun t => decide (v ≤ t.id)) := by
  rw [List.filter_filter]
  apply List.filter_congr
  intro x _
  by_cases hb : v ≤ x.id
  · have : bound ≤ x.id := le_trans hv hb
    simp [hb, this]
  · simp [hb]

theorem mem_eligMem_bound (db : List MemRow) (tenant : String) (f : TupleFilter)
    (bound : Nat) (t : RelationTuple) (ht : t ∈ eligMem db tenant f bound) :
    bound ≤ t.id := by
  unfold eligMem at ht
  have := (List.mem_filter.mp ht).2
  simpa using this

theorem mem_eligPg_bound (db : List PgRow) (tenant : String) (f : TupleFilter)
    (xid bound : Nat) (t : RelationTuple) (ht : t ∈ eligPg db tenant f xid bound) :
    bound ≤ t.id := by
  unfold eligPg at ht
  have := (List.mem_filter.mp ht).2
  simpa using this

theorem eligMem_strict (db : List MemRow) (tenant : String) (f : TupleFilter) (bound : Nat)
    (hnd : (db.map (·.rt.id)).Nodup) :
    (eligMem db tenant f bound).Pairwise (fun a b => a.id < b.id) := by
  unfold eligMem
  apply List.Pairwise.filter
  apply sortById_strict
  rw [List.map_map]
  exact ((List.filter_sublist db).map _).nodup hnd

theorem eligPg_strict (db : List PgRow) (tenant : String) (f : TupleFilter) (xid bound : Nat)
    (hnd : (db.map (·.rt.id)).Nodup) :
    (eligPg db tenant f xid bound).Pairwise (fun a b => a.id < b.id) := by
  unfold eligPg
  apply List.Pairwise.filter
  apply sortById_strict
  rw [List.map_map]
  exact ((List.filter_sublist db).map _).nodup hnd

theorem eligMem_rebound (db : List MemRow) (tenant : String) (f : TupleFilter) (bound : Nat)
    (hnd : (db.map (·.rt.id)).Nodup) (n : Nat)
    (h : n < (eligMem db tenant f bound).length) :
    eligMem db tenant f (((eligMem db tenant f bound).get ⟨n, h⟩).id) =
      (eligMem db tenant f bound).drop n := by
  have hvb : bound ≤ ((eligMem db tenant f bound).get ⟨n, h⟩).id :=
    mem_eligMem_bound db tenant f bound _ (List.get_mem _ n h)
  have hstrict := eligMem_strict db tenant f bound hnd
  calc eligMem db tenant f (((eligMem db tenant f bound).get ⟨n, h⟩).id)
      = (sortById ((db.filter (memMatch tenant f)).map (·.rt))).filter
          (fun t => decide ((((eligMem db tenant f bound).get ⟨n, h⟩).id) ≤ t.id)) := rfl
    _ = (eligMem db tenant f bound).filter
          (fun t => decide ((((eligMem db tenant f bound).get ⟨n, h⟩).id) ≤ t.id)) :=
        refilter_ge _ bound _ hvb
    _ = (eligMem db tenant f bound).drop n := strict_sorted_filter_ge _ hstrict n h

theorem eligPg_rebound (db : List PgRow) (tenant : String) (f : TupleFilter) (xid bound : Nat)
    (hnd : (db.map (·.rt.id)).Nodup) (n : Nat)
    (h : n < (eligPg db tenant f xid bound).length) :
    eligPg db tenant f xid (((eligPg db tenant f xid bound).get ⟨n, h⟩).id) =
      (eligPg db tenant f xid bound).drop n := by
  have hvb : bound ≤ ((eligPg db tenant f xid bound).get ⟨n, h⟩).id :=
    mem_eligPg_bound db tenant f xid bound _ (List.get_mem _ n h)
  have hstrict := eligPg_strict db tenant f xid bound hnd
  calc eligPg db tenant f xid (((eligPg db tenant f xid bound).get ⟨n, h⟩).id)
      = (sortById ((db.filter (pgVisible tenant f xid)).map (·.rt))).filter
          (fun t => decide ((((eligPg db tenant f xid bound).get ⟨n, h⟩).id) ≤ t.id)) := rfl
    _ = (eligPg db tenant f xid bound).filter
          (fun t => decide ((((eligPg db tenant f xid bound).get ⟨n, h⟩).id) ≤ t.id)) :=
        refilter_ge _ bound _ hvb
    _ = (eligPg db tenant f xid bound).drop n := strict_sorted_filter_ge _ hstrict n h

theorem formatUint_data_ne_nil (v : Nat) : (formatUint v).data ≠ [] := by
  unfold formatUint
  by_cases h0 : v = 0
  · subst h0
    decide
  · simp only [h0, if_false]
    have hne : toDigitsRev v ≠ [] := by
      unfold toDigitsRev
      cases v with
      | zero => exact absurd rfl h0
      | succ m => simp [toDigitsRevFuel]
    show (((toDigitsRev v).reverse).map digitChar) ≠ []
    simp [hne]

theorem encodeContToken_formatUint_ne_empty (v : Nat) :
    ¬ encodeContToken (formatUint v) = "" := by
  intro h
  have hdata : (encodeContToken (formatUint v)).data = [] := by
    rw [h]
  unfold encodeContToken at hdata
  have : b64EncodeBytes (stringToBytes (formatUint v)) = [] := hdata
  have hbytes : stringToBytes (formatUint v) ≠ [] := by
    unfold stringToBytes
    simp [formatUint_data_ne_nil v]
  rcases hb : stringToBytes (formatUint v) with _ | ⟨a, rest⟩
  · exact hbytes hb
  · rw [hb] at this
    rcases rest with _ | ⟨b, rest2⟩
    · exact absurd this (by simp [b64EncodeBytes])
    · rcases rest2 with _ | ⟨c, rest3⟩
      · exact absurd this (by simp [b64EncodeBytes])
      · exact absurd this (by simp [b64EncodeBytes])

/-- The round-trip hypothesis `memRead_spec` and `pgRead_spec` need for the
token produced from a row id below 2^64. -/
theorem token_spec_of_id (v : Nat) (hv : v < 2 ^ 64) :
    encodeContToken (formatUint v) = "" ∧ v = 0 ∨
      ¬ encodeContToken (formatUint v) = "" ∧
        ∃ s, decodeContToken (encodeContToken (formatUint v)) = .ok s ∧
          parseUint s = .ok v := by
  right
  refine ⟨encodeContToken_formatUint_ne_empty v, formatUint v, ?_, parseUint_formatUint v hv⟩
  apply decodeContToken_encode
  intro c hc
  have := mem_data_formatUint v c hc
  omega

theorem mem_eligMem_source (db : List MemRow) (tenant : String) (f : TupleFilter)
    (bound : Nat) (t : RelationTuple) (ht : t ∈ eligMem db tenant f bound) :
    ∃ r ∈ db, r.rt = t := by
  unfold eligMem at ht
  have h1 := (List.mem_filter.mp ht).1
  have h2 := (sortById_perm _).mem_iff.mp h1
  rcases List.mem_map.mp h2 with ⟨r, hr, rfl⟩
  exact ⟨r, (List.mem_filter.mp hr).1, rfl⟩

theorem mem_eligPg_source (db : List PgRow) (tenant : String) (f : TupleFilter)
    (xid bound : Nat) (t : RelationTuple) (ht : t ∈ eligPg db tenant f xid bound) :
    ∃ r ∈ db, r.rt = t := by
  unfold eligPg at ht
  have h1 := (List.mem_filter.mp ht).1
  have h2 := (sortById_perm _).mem_iff.mp h1
  rcases List.mem_map.mp h2 with ⟨r, hr, rfl⟩
  exact ⟨r, (List.mem_filter.mp hr).1, rfl⟩

/-- C4: for every filter and page size n, on both back ends
`ReadRelationships` returns the first n of the eligible rows — the matching
(and, relationally, snapshot-visible) rows sorted by ascending row id and
restricted to ids at or above the bound decoded from the pagination token
(bound 0 for the empty token) — so the result has at most n tuples, is
ordered by strictly ascending row id, and every returned row id is at least
the bound.  A non-noop continuous token is returned exactly when more than n
eligible rows remain, and it encodes the row id of the first unreturned row,
so an equal query resumed with that token returns the next n eligible rows. -/
theorem c4_read_relationships_pagination (db_m : List MemRow) (db_p : List PgRow)
    (tenant : String) (f : TupleFilter) (snap : String) (xid n bound : Nat) (tok : String)
    (hnd_m : (db_m.map (·.rt.id)).Nodup) (hnd_p : (db_p.map (·.rt.id)).Nodup)
    (h64_m : ∀ r ∈ db_m, r.rt.id < 2 ^ 64) (h64_p : ∀ r ∈ db_p, r.rt.id < 2 ^ 64)
    (htok : tok = "" ∧ bound = 0 ∨
      ¬ tok = "" ∧ ∃ s, decodeContToken tok = .ok s ∧ parseUint s = .ok bound) :
    memReadRelationships db_m tenant f snap n tok =
      .ok (((eligMem db_m tenant f bound).take n).map RelationTuple.toTuple,
        (pageAndToken (eligMem db_m tenant f bound) n).2) ∧
    pgReadRelationships db_p noFx tenant f (snapTokenEncode xid) n tok =
      .ok (((eligPg db_p tenant f xid bound).take n).map RelationTuple.toTuple,
        (pageAndToken (eligPg db_p tenant f xid bound) n).2) ∧
    ((eligMem db_m tenant f bound).take n).length ≤ n ∧
    ((eligPg db_p tenant f xid bound).take n).length ≤ n ∧
    ((eligMem db_m tenant f bound).take n).Pairwise (fun a b => a.id < b.id) ∧
    ((eligPg db_p tenant f xid bound).take n).Pairwise (fun a b => a.id < b.id) ∧
    (∀ t ∈ (eligMem db_m tenant f bound).take n, bound ≤ t.id) ∧
    (∀ t ∈ (eligPg db_p tenant f xid bound).take n, bound ≤ t.id) ∧
    ((pageAndToken (eligMem db_m tenant f bound) n).2 ≠ .noop ↔
      n < (eligMem db_m tenant f bound).length) ∧
    ((pageAndToken (eligPg db_p tenant f xid bound) n).2 ≠ .noop ↔
      n < (eligPg db_p tenant f xid bound).length) ∧
    (∀ h : n < (eligMem db_m tenant f bound).length,
      (pageAndToken (eligMem db_m tenant f bound) n).2 =
        .token (encodeContToken (formatUint ((eligMem db_m tenant f bound).get ⟨n, h⟩).id)) ∧
      memReadRelationships db_m tenant f snap n
          (encodeContToken (formatUint ((eligMem db_m tenant f bound).get ⟨n, h⟩).id)) =
        .ok ((((eligMem db_m tenant f bound).drop n).take n).map RelationTuple.toTuple,
          (pageAndToken ((eligMem db_m tenant f bound).drop n) n).2)) ∧
    (∀ h : n < (eligPg db_p tenant f xid bound).length,
      (pageAndToken (eligPg db_p tenant f xid bound) n).2 =
        .token (encodeContToken (formatUint ((eligPg db_p tenant f xid bound).get ⟨n, h⟩).id)) ∧
      pgReadRelationships db_p noFx tenant f (snapTokenEncode xid) n
          (encodeContToken (formatUint ((eligPg db_p tenant f xid bound).get ⟨n, h⟩).id)) =
        .ok ((((eligPg db_p tenant f xid bound).drop n).take n).map RelationTuple.toTuple,
          (pageAndToken ((eligPg db_p tenant f xid bound).drop n) n).2)) := by
  refine ⟨?_, ?_, ?_, ?_, ?_, ?_, ?_, ?_, ?_, ?_, ?_, ?_⟩
  · rw [memRead_spec db_m tenant f snap n bound tok htok, pageAndToken_fst]
  · rw [pgRead_spec db_p tenant f xid n bound tok hnd_p htok, pageAndToken_fst]
  · rw [List.length_take]
    omega
  · rw [List.length_take]
    omega
  · exact List.Pairwise.sublist (List.take_sublist n _) (eligMem_strict db_m tenant f bound hnd_m)
  · exact List.Pairwise.sublist (List.take_sublist n _)
      (eligPg_strict db_p tenant f xid bound hnd_p)
  · intro t ht
    exact mem_eligMem_bound db_m tenant f bound t ((List.take_sublist n _).mem ht)
  · intro t ht
    exact mem_eligPg_bound db_p tenant f xid bound t ((List.take_sublist n _).mem ht)
  · exact pageAndToken_snd_ne_noop_iff _ n
  · exact pageAndToken_snd_ne_noop_iff _ n
  · intro h
    refine ⟨pageAndToken_snd_token _ n h, ?_⟩
    have hid64 : ((eligMem db_m tenant f bound).get ⟨n, h⟩).id < 2 ^ 64 := by
      rcases mem_eligMem_source db_m tenant f bound _ (List.get_mem _ n h) with ⟨r, hr, heq⟩
      rw [← heq]
      exact h64_m r hr
    have hspec := memRead_spec db_m tenant f snap n
      (((eligMem db_m tenant f bound).get ⟨n, h⟩).id)
      (encodeContToken (formatUint (((eligMem db_m tenant f bound).get ⟨n, h⟩).id)))
      (token_spec_of_id _ hid64)
    rw [hspec, eligMem_rebound db_m tenant f bound hnd_m n h, pageAndToken_fst]
  · intro h
    refine ⟨pageAndToken_snd_token _ n h, ?_⟩
    have hid64 : ((eligPg db_p tenant f xid bound).get ⟨n, h⟩).id < 2 ^ 64 := by
      rcases mem_eligPg_source db_p tenant f xid bound _ (List.get_mem _ n h) with ⟨r, hr, heq⟩
      rw [← heq]
      exact h64_p r hr
    have hspec := pgRead_spec db_p tenant f xid n
      (((eligPg db_p tenant f xid bound).get ⟨n, h⟩).id)
      (encodeContToken (formatUint (((eligPg db_p tenant f xid bound).get ⟨n, h⟩).id)))
      hnd_p (token_spec_of_id _ hid64)
    rw [hspec, eligPg_rebound db_p tenant f xid bound hnd_p n h, pageAndToken_fst]

/-- A sample in-memory store with row ids 3, 1, 2. -/
def c4MemDb : List MemRow :=
  [{ rt := sampleRow 3 "c", committedAt := 1 }, { rt := sampleRow 1 "a", committedAt := 1 },
   { rt := sampleRow 2 "b", committedAt := 1 }]

/-- A sample relational store in which row 2 was committed after snapshot 5. -/
def c4PgDb : List PgRow :=
  [{ rt := sampleRow 3 "c", commitTx := 1 }, { rt := sampleRow 1 "a", commitTx := 1 },
   { rt := sampleRow 2 "b", commitTx := 9 }]

/-- C4 witness: page size 1 with an empty token over the concrete stores;
the first page is the single lowest-id eligible row, and the resumed query
with the returned token delivers the next page. -/
theorem c4_read_relationships_pagination_witness :
    (c4MemDb.map (·.rt.id)).Nodup ∧
    (c4PgDb.map (·.rt.id)).Nodup ∧
    (∀ r ∈ c4MemDb, r.rt.id < 2 ^ 64) ∧
    (∀ r ∈ c4PgDb, r.rt.id < 2 ^ 64) ∧
    ((eligMem c4MemDb "t1" wildFilter 0).take 1).map RelationTuple.toTuple =
      [(sampleRow 1 "a").toTuple] ∧
    ((eligPg c4PgDb "t1" wildFilter 5 0).take 1).map RelationTuple.toTuple =
      [(sampleRow 1 "a").toTuple] ∧
    memReadRelationships c4MemDb "t1" wildFilter "snap" 1 "" =
      .ok (((eligMem c4MemDb "t1" wildFilter 0).take 1).map RelationTuple.toTuple,
        (pageAndToken (eligMem c4MemDb "t1" wildFilter 0) 1).2) ∧
    pgReadRelationships c4PgDb noFx "t1" wildFilter (snapTokenEncode 5) 1 "" =
      .ok (((eligPg c4PgDb "t1" wildFilter 5 0).take 1).map RelationTuple.toTuple,
        (pageAndToken (eligPg c4PgDb "t1" wildFilter 5 0) 1).2) ∧
    memReadRelationships c4MemDb "t1" wildFilter "snap" 1
        (encodeContToken (formatUint
          ((eligMem c4MemDb "t1" wildFilter 0).get ⟨1, by decide⟩).id)) =
      .ok ((((eligMem c4MemDb "t1" wildFilter 0).drop 1).take 1).map RelationTuple.toTuple,
        (pageAndToken ((eligMem c4MemDb "t1" wildFilter 0).drop 1) 1).2) :=
  ⟨by decide, by decide, by decide, by decide, by decide, by decide,
   (c4_read_relationships_pagination c4MemDb c4PgDb "t1" wildFilter "snap" 5 1 0 ""
     (by decide) (by decide) (by decide) (by decide) (Or.inl ⟨rfl, rfl⟩)).1,
   (c4_read_relationships_pagination c4MemDb c4PgDb "t1" wildFilter "snap" 5 1 0 ""
     (by decide) (by decide) (by decide) (by decide) (Or.inl ⟨rfl, rfl⟩)).2.1,
   ((c4_read_relationships_pagination c4MemDb c4PgDb "t1" wildFilter "snap" 5 1 0 ""
     (by decide) (by decide) (by decide) (by decide)
     (Or.inl ⟨rfl, rfl⟩)).2.2.2.2.2.2.2.2.2.2.1 (by decide)).2⟩

end Permify
